import Mathlib

/-!
Verification development for the odooSpeak repository.

The reconciliation engine, posting translator, ledger poster, drift
reconciler and handler loop of `src/OdooSpeakRequest.js` and
`src/OdooSpeakStockSync.js` are embedded shallowly: the DynamoDB table
becomes a list of records threaded through the pure functions, remote
calls that only transport data are abstracted away, and functions that
can throw return `Except`.  JavaScript numbers are modelled as `Int`
(the verified properties are structural and hold in any ordered ring);
JavaScript strings as `String`; an attribute that may be absent as an
`Option`, with the source's falsiness checks (`!x`) modelled explicitly.
-/

deriving instance DecidableEq for Except

namespace OdooSpeak

/-! ## Data model of the reconciliation engine (OdooSpeakRequest.js 155-337)

`ReqAttrs` is `request.attributes` of one incoming Infraspeak request;
`request_id` is kept already string-normalised (the source applies
`String(request_id)` before every comparison and store write).
`DynamoRecord` is one row of the `odooSpeakRequests` table; attributes a
row may lack (`stock_move_ids`, `account_move_id`, `cost_center_odoo`)
are `Option`s.  `ClassifiedItem` is one element of the `results` list the
engine returns; the REVERSED shape omits the upsert-only fields, hence
the `Option` fields. -/

structure ReqAttrs where
  request_id : String
  type : String
  related_to_type : String
  related_to_id : String
  date_created : String
  date_updated : String
  operator_id : String
  cost_center_odoo : Option String
  journal_move_id : Option String
  stock_move_ids : Option (List Nat)
deriving DecidableEq

structure DynamoRecord where
  request_id : String
  type : String
  related_to_type : String
  related_to_id : String
  state : String
  date_created : String
  date_updated : String
  operator_id : String
  reversed : Bool
  stock_move_ids : Option (List Nat)
  account_move_id : Option Nat
  cost_center_odoo : Option Nat
deriving DecidableEq

structure ClassifiedItem where
  cost_center_odoo : Option String
  journal_move_id : Option String
  request_id : String
  related_to_id : String
  related_to_type : String
  stock_move_ids : Option (List Nat)
  state : String
  upserted : Option String
deriving DecidableEq

/-- The store lookup `existingItems.find(item => item.request_id === requestId)`. -/
def findReq : List DynamoRecord → String → Option DynamoRecord
  | [], _ => none
  | r :: rest, id => if r.request_id == id then some r else findReq rest id

/-- DynamoDB `PutCommand`: replace the item with this key, else append. -/
def putRecord : List DynamoRecord → DynamoRecord → List DynamoRecord
  | [], rec => [rec]
  | r :: rest, rec =>
      if r.request_id == rec.request_id then rec :: rest else r :: putRecord rest rec

/-- A keyed `UpdateCommand`: rewrite the record stored under key `k`. -/
def mapByKey : List DynamoRecord → String → (DynamoRecord → DynamoRecord) → List DynamoRecord
  | [], _, _ => []
  | r :: rest, k, g => (if r.request_id == k then g r else r) :: mapByKey rest k g

/-- The item `insertRequestToDynamo` writes (lines 252-269): state COMPLETED,
`reversed: false`, and no `stock_move_ids`/`account_move_id`/`cost_center_odoo`
attributes (a `PutCommand` replaces the whole item). -/
def newRecordOfAttrs (a : ReqAttrs) : DynamoRecord :=
  { request_id := a.request_id
    type := a.type
    related_to_type := a.related_to_type
    related_to_id := a.related_to_id
    state := "COMPLETED"
    date_created := a.date_created
    date_updated := a.date_updated
    operator_id := a.operator_id
    reversed := false
    stock_move_ids := none
    account_move_id := none
    cost_center_odoo := none }

def insertRequestToDynamo (store : List DynamoRecord) (a : ReqAttrs) : List DynamoRecord :=
  putRecord store (newRecordOfAttrs a)

/-- The `SET` expression of `updateRequestInDynamo` (lines 273-301): overwrites
the listed attributes (state COMPLETED, `reversed: false`), keeps the rest. -/
def updatedRecord (a : ReqAttrs) (r : DynamoRecord) : DynamoRecord :=
  { r with
    type := a.type
    related_to_type := a.related_to_type
    related_to_id := a.related_to_id
    state := "COMPLETED"
    date_created := a.date_created
    date_updated := a.date_updated
    operator_id := a.operator_id
    reversed := false }

def updateRequestInDynamo (store : List DynamoRecord) (k : String) (a : ReqAttrs) :
    List DynamoRecord :=
  mapByKey store k (updatedRecord a)

def markAsReversed (store : List DynamoRecord) (k : String) : List DynamoRecord :=
  mapByKey store k (fun r => { r with reversed := true })

def resetReversedFlag (store : List DynamoRecord) (k : String) : List DynamoRecord :=
  mapByKey store k (fun r => { r with reversed := false })

/-- The classified item pushed on INSERT (lines 185-194): literal empty
`stock_move_ids`, state COMPLETED, upserted INSERTED.  The destructuring
defaults `cost_center_odoo = ''`, `journal_move_id = ''` are the `getD ""`. -/
def insertedItem (a : ReqAttrs) : ClassifiedItem :=
  { cost_center_odoo := some (a.cost_center_odoo.getD "")
    journal_move_id := some (a.journal_move_id.getD "")
    request_id := a.request_id
    related_to_id := a.related_to_id
    related_to_type := a.related_to_type
    stock_move_ids := some []
    state := "COMPLETED"
    upserted := some "INSERTED" }

/-- The classified item pushed on UPDATE (lines 207-216): carries the
persisted record's `stock_move_ids || []`, upserted UPDATED.  (On a string
already defaulted to `""`, the source's `cost_center_odoo || ''` is the
identity, likewise `journal_move_id || ''`.) -/
def updatedItem (a : ReqAttrs) (ex : DynamoRecord) : ClassifiedItem :=
  { cost_center_odoo := some (a.cost_center_odoo.getD "")
    journal_move_id := some (a.journal_move_id.getD "")
    request_id := a.request_id
    related_to_id := a.related_to_id
    related_to_type := a.related_to_type
    stock_move_ids := some (ex.stock_move_ids.getD [])
    state := "COMPLETED"
    upserted := some "UPDATED" }

/-- The classified item pushed on retraction (lines 228-233). -/
def reversedItem (r : DynamoRecord) : ClassifiedItem :=
  { cost_center_odoo := none
    journal_move_id := none
    request_id := r.request_id
    related_to_id := r.related_to_id
    related_to_type := r.related_to_type
    stock_move_ids := none
    state := "REVERSED"
    upserted := none }

/-- The engine's mutable pair: the DynamoDB table and the `results` array. -/
structure RunState where
  store : List DynamoRecord
  results : List ClassifiedItem
deriving DecidableEq

/-- Body of the first loop of `checkAndUpsertRequests` (lines 165-220).
`existingItems` is the scan snapshot taken before the loop: every lookup
uses it, while writes go to the threaded store. -/
def processRequestStep (existingItems : List DynamoRecord) (s : RunState) (a : ReqAttrs) :
    RunState :=
  match findReq existingItems a.request_id with
  | none =>
      { store := insertRequestToDynamo s.store a
        results := s.results ++ [insertedItem a] }
  | some ex =>
      let store1 := if ex.reversed then resetReversedFlag s.store a.request_id else s.store
      if ex.date_updated ≠ a.date_updated then
        { store := updateRequestInDynamo store1 a.request_id a
          results := s.results ++ [updatedItem a ex] }
      else
        { s with store := store1 }

/-- Body of the second loop of `checkAndUpsertRequests` (lines 223-236):
items absent from the payload and not already reversed are marked. -/
def reverseStep (payloadRequestIds : List String) (s : RunState) (item : DynamoRecord) :
    RunState :=
  if payloadRequestIds.contains item.request_id || item.reversed then s
  else
    { store := markAsReversed s.store item.request_id
      results := s.results ++ [reversedItem item] }

/-- `checkAndUpsertRequests` (lines 155-238): returns the final table
contents and the function's return value (`null` when no classified item
was produced). -/
def checkAndUpsertRequests (payload : List ReqAttrs) (store : List DynamoRecord) :
    List DynamoRecord × Option (List ClassifiedItem) :=
  let payloadRequestIds := payload.map (fun r => r.request_id)
  let existingItems := store
  let s1 := payload.foldl (processRequestStep existingItems) ⟨store, []⟩
  let s2 := existingItems.foldl (reverseStep payloadRequestIds) s1
  (s2.store, if s2.results.isEmpty then none else some s2.results)

/-! ### Spec-side characterisation of the classified output

`emitUpsert` and `emitReverse` restate, item by item, the classification
contract of spec section 4.1: they are compared against the engine above
(refinement), not used to define it. -/

def emitUpsert (snapshot : List DynamoRecord) (a : ReqAttrs) : Option ClassifiedItem :=
  match findReq snapshot a.request_id with
  | none => some (insertedItem a)
  | some ex => if ex.date_updated ≠ a.date_updated then some (updatedItem a ex) else none

def emitReverse (payloadRequestIds : List String) (r : DynamoRecord) : Option ClassifiedItem :=
  if payloadRequestIds.contains r.request_id || r.reversed then none
  else some (reversedItem r)

/-- The classified items spec section 4.1 predicts for one run. -/
def emittedItems (payload : List ReqAttrs) (store : List DynamoRecord) : List ClassifiedItem :=
  payload.filterMap (emitUpsert store) ++
    store.filterMap (emitReverse (payload.map (fun r => r.request_id)))

/-! ## Posting translator: the material pipeline of processWorkOrder
(OdooSpeakRequest.js 409-493)

Only the material-list portion is embedded; the cost-center resolution
(lines 415-429) is a chain of remote lookups orthogonal to claims C4/C6.
`jsFalsyNat`/`jsFalsyStr` spell out the `!x` checks of the source on a
possibly-missing number / string. -/

def jsFalsyNat : Option Nat → Bool
  | none => true
  | some n => n == 0

def jsFalsyStr : Option String → Bool
  | none => true
  | some s => s == ""

/-- `fullCode.split(".")[0]`: the characters before the first `.` (the
whole string when it has no dot). -/
def takeBeforeDot : List Char → List Char
  | [] => []
  | c :: rest => if c == '.' then [] else c :: takeBeforeDot rest

def jsFolderCode (s : String) : String := String.mk (takeBeforeDot s.data)

/-- `String.prototype.toUpperCase`, per-character (the simple Unicode
mapping, which covers the product codes the system exchanges). -/
def jsToUpper (s : String) : String := String.mk (s.data.map Char.toUpper)

def jsToLower (s : String) : String := String.mk (s.data.map Char.toLower)

/-- `String.prototype.trim`: strip leading and trailing whitespace. -/
def jsTrim (s : String) : String :=
  String.mk (((s.data.dropWhile Char.isWhitespace).reverse.dropWhile Char.isWhitespace).reverse)

/-- Attributes of an `included` entry with `type === 'material'`. -/
structure MaterialAttrs where
  material_id : Option Nat
  code : Option String
  full_code : Option String
  mean_price : Int
deriving DecidableEq

/-- Attributes of an `included` entry with `type === 'stock'`. -/
structure StockAttrs where
  material_id : Nat
  quantity : Option Int
  mean_price : Int
deriving DecidableEq

/-- One element of `infraspeakData.included`; entries of other types are
filtered out by the source. -/
inductive IncludedItem where
  | material (m : MaterialAttrs)
  | stock (s : StockAttrs)
  | other
deriving DecidableEq

def materialEntriesOf : List IncludedItem → List MaterialAttrs
  | [] => []
  | .material m :: rest => m :: materialEntriesOf rest
  | _ :: rest => materialEntriesOf rest

def stockEntriesOf : List IncludedItem → List StockAttrs
  | [] => []
  | .stock s :: rest => s :: stockEntriesOf rest
  | _ :: rest => stockEntriesOf rest

/-- `stock.attributes.quantity || 0` (falsiness of a missing or zero number). -/
def jsQty (s : StockAttrs) : Int := s.quantity.getD 0

/-- One aggregation group of the `stockMap` (lines 435-446): `meanPrice`
is fixed when the group is created, `totalQuantity` accumulates. -/
structure StockAgg where
  totalQuantity : Int
  meanPrice : Int
deriving DecidableEq

/-- One `reduce` step building the `stockMap`: a JavaScript object keyed by
`material_id`, modelled as an association list in insertion order. -/
def stockMapInsert : List (Nat × StockAgg) → StockAttrs → List (Nat × StockAgg)
  | [], s => [(s.material_id, ⟨jsQty s, s.mean_price⟩)]
  | (k, a) :: rest, s =>
      if k == s.material_id then
        (k, ⟨a.totalQuantity + jsQty s, a.meanPrice⟩) :: rest
      else
        (k, a) :: stockMapInsert rest s

def buildStockMap (stocks : List StockAttrs) : List (Nat × StockAgg) :=
  stocks.foldl stockMapInsert []

def stockMapLookup : List (Nat × StockAgg) → Nat → Option StockAgg
  | [], _ => none
  | p :: rest, k => if p.1 == k then some p.2 else stockMapLookup rest k

/-- One derived material line (lines 474-481). -/
structure MaterialLine where
  workOrderId : Nat
  materialId : Nat
  materialCode : String
  folderCode : String
  quantity : Int
  meanPrice : Int
deriving DecidableEq

/-- Body of the `materials.map` callback (lines 449-482): `ok none` is the
`return null` skip for a falsy material id, `error` a thrown validation
error, which aborts the whole `map`. -/
def buildMaterialLine (workOrderId : Nat) (stockMap : List (Nat × StockAgg))
    (mat : MaterialAttrs) : Except String (Option MaterialLine) :=
  if jsFalsyNat mat.material_id then Except.ok none
  else
    let materialId := mat.material_id.getD 0
    let stock := (stockMapLookup stockMap materialId).getD ⟨0, mat.mean_price⟩
    if jsFalsyStr mat.code then Except.error "Material code is missing or invalid"
    else if jsFalsyStr mat.full_code then Except.error "Full code is missing or invalid"
    else
      let folderCode := jsFolderCode (mat.full_code.getD "")
      if folderCode == "" then Except.error "Folder code is missing or invalid"
      else
        Except.ok (some
          { workOrderId := workOrderId
            materialId := materialId
            materialCode := mat.code.getD ""
            folderCode := folderCode
            quantity := stock.totalQuantity
            meanPrice := stock.meanPrice })

/-- `materials.map(...).filter(Boolean)` with a throw aborting the map:
left-to-right traversal, first error wins, nulls dropped. -/
def mapMaterials (workOrderId : Nat) (stockMap : List (Nat × StockAgg)) :
    List MaterialAttrs → Except String (List MaterialLine)
  | [] => Except.ok []
  | m :: rest =>
      match buildMaterialLine workOrderId stockMap m with
      | Except.error e => Except.error e
      | Except.ok line? =>
          match mapMaterials workOrderId stockMap rest with
          | Except.error e => Except.error e
          | Except.ok rest' =>
              Except.ok (match line? with
                | none => rest'
                | some l => l :: rest')

/-- The material-list portion of `processWorkOrder`: split `included` by
type, aggregate the stock entries, derive one line per material entry. -/
def processWorkOrderMaterials (workOrderId : Nat) (included : List IncludedItem) :
    Except String (List MaterialLine) :=
  mapMaterials workOrderId (buildStockMap (stockEntriesOf included))
    (materialEntriesOf included)

/-! ## Inventory posting: prepareInventoryPosting
(OdooSpeakRequest.js 518-577) -/

/-- One Odoo `stock.quant` row as used by the source: `product_id[1]` is
the display string (`"Name [CODE]"`), `product_id[0]`/`location_id[0]`
the numeric ids. -/
structure OdooStockRecord where
  id : Nat
  product_display : String
  product_id0 : Nat
  location_id0 : Nat
  quantity : Int
deriving DecidableEq

/-- Content between `[` and the first following `]`, after the first `[`
of the string: the capture of `/\[(.*?)\]/`.  `none` when the regex does
not match (no `[`, or no `]` after the first `[`), in which case the
source's `match(...)[1]` throws a TypeError. -/
def takeUntilRBracket : List Char → Option (List Char)
  | [] => none
  | c :: rest => if c == ']' then some [] else (takeUntilRBracket rest).map (fun l => c :: l)

def bracketCodeAux : List Char → Option (List Char)
  | [] => none
  | c :: rest => if c == '[' then takeUntilRBracket rest else bracketCodeAux rest

def bracketCode (s : String) : Option String :=
  (bracketCodeAux s.data).map (fun cs => String.mk cs)

/-- The errors `prepareInventoryPosting` can throw, in source order:
the missing-materialCode guard, the TypeError from `match(...)[1]` on a
bracketless display string, the empty-capture guard, insufficient stock,
no matching product, and the empty-result guard. -/
inductive InvError where
  | missingMaterialCode
  | noBracketTypeError
  | missingRefCode
  | insufficientStock
  | noMatchingProduct
  | noValidData
deriving DecidableEq

/-- The comparison of the find callback once the reference code is in
hand: `ref.trim().toUpperCase() === code.trim().toUpperCase()`. -/
def refMatches (p : OdooStockRecord) (code : String) : Bool :=
  jsToUpper (jsTrim ((bracketCode p.product_display).getD "")) == jsToUpper (jsTrim code)

/-- `odooStock.find(product => ...)` (lines 532-543): the callback throws
out of the scan on a bracketless or empty reference code. -/
def findMatchingProduct (code : String) :
    List OdooStockRecord → Except InvError (Option OdooStockRecord)
  | [] => Except.ok none
  | p :: rest =>
      match bracketCode p.product_display with
      | none => Except.error InvError.noBracketTypeError
      | some ref =>
          if ref == "" then Except.error InvError.missingRefCode
          else if jsToUpper (jsTrim ref) == jsToUpper (jsTrim code) then Except.ok (some p)
          else findMatchingProduct code rest

/-- One posting pushed onto `results` (lines 558-563). -/
structure InventoryPosting where
  product_id : Nat
  location_id : Nat
  quantity : Int
  work_order_id : Nat
deriving DecidableEq

/-- Body of the `forEach` over the work order's material lines
(lines 521-567); `firstWid` is `processedWorkOrder[0].workOrderId`. -/
def prepareItem (firstWid : Nat) (odooStock : List OdooStockRecord) (item : MaterialLine) :
    Except InvError InventoryPosting :=
  if item.materialCode == "" then Except.error InvError.missingMaterialCode
  else
    match findMatchingProduct item.materialCode odooStock with
    | Except.error e => Except.error e
    | Except.ok none => Except.error InvError.noMatchingProduct
    | Except.ok (some p) =>
        if p.quantity - item.quantity < 0 then Except.error InvError.insufficientStock
        else
          Except.ok
            { product_id := p.product_id0
              location_id := p.location_id0
              quantity := item.quantity
              work_order_id := firstWid }

def prepareItems (firstWid : Nat) (odooStock : List OdooStockRecord) :
    List MaterialLine → Except InvError (List InventoryPosting)
  | [] => Except.ok []
  | l :: rest =>
      match prepareItem firstWid odooStock l with
      | Except.error e => Except.error e
      | Except.ok p =>
          match prepareItems firstWid odooStock rest with
          | Except.error e => Except.error e
          | Except.ok ps => Except.ok (p :: ps)

/-- `prepareInventoryPosting` (lines 518-577): every processed line pushes
exactly one posting or throws, so the `results.length === 0` guard fires
exactly on an empty input list. -/
def prepareInventoryPosting (lines : List MaterialLine) (odooStock : List OdooStockRecord) :
    Except InvError (List InventoryPosting) :=
  match lines with
  | [] => Except.error InvError.noValidData
  | l0 :: rest => prepareItems l0.workOrderId odooStock (l0 :: rest)

/-! ## Ledger poster: journal lines of postOdooAccounting
(OdooSpeakRequest.js 745-790) -/

def accountIdInventories : Nat := 482

/-- One material of the accounting payload (a `MaterialLine` for the
COMPLETED path). -/
structure AcctMaterial where
  materialCode : String
  quantity : Int
  meanPrice : Int
deriving DecidableEq

structure AcctData where
  workOrderId : Nat
  costCenter : Nat
  material : List AcctMaterial
deriving DecidableEq

/-- One element of `line_ids`: a debit or a credit line. -/
structure JournalLine where
  account_id : Nat
  name : String
  debit : Option Int
  credit : Option Int
deriving DecidableEq

def lineName (orderType : String) (workOrderId : Nat) (m : AcctMaterial) (state : String) :
    String :=
  if state == "REVERSED" then
    orderType ++ " " ++ toString workOrderId ++ " REVERSED"
  else
    orderType ++ " " ++ toString workOrderId ++ " - Ref: " ++ m.materialCode ++
      " (Qty: " ++ toString m.quantity ++ ")"

/-- The `line_ids` list built by `postOdooAccounting` (lines 747-769): per
material one (debit, credit) pair, flattened. -/
def postOdooAccountingLines (accountingData : AcctData) (costCenterId : Nat)
    (orderType : String) (state : String) : List JournalLine :=
  let debitAccount := if state == "REVERSED" then costCenterId else accountIdInventories
  let creditAccount := if state == "REVERSED" then accountIdInventories else costCenterId
  (accountingData.material.map (fun m =>
    let name := lineName orderType accountingData.workOrderId m state
    let amount := if state == "REVERSED" then m.meanPrice else m.meanPrice * m.quantity
    [ { account_id := debitAccount, name := name, debit := some amount, credit := none },
      { account_id := creditAccount, name := name, debit := none, credit := some amount } ]
  )).flatten

/-- Adjacent (debit, credit) pairs of a line list, for stating the
balanced-pairs property about the output. -/
def chunkPairs : List JournalLine → List (JournalLine × JournalLine)
  | a :: b :: rest => (a, b) :: chunkPairs rest
  | _ => []

/-- The debit line `postOdooAccountingLines` builds for one material. -/
def debitLineFor (costCenterId : Nat) (orderType : String) (workOrderId : Nat)
    (state : String) (m : AcctMaterial) : JournalLine :=
  { account_id := if state == "REVERSED" then costCenterId else accountIdInventories
    name := lineName orderType workOrderId m state
    debit := some (if state == "REVERSED" then m.meanPrice else m.meanPrice * m.quantity)
    credit := none }

/-- The credit line `postOdooAccountingLines` builds for one material. -/
def creditLineFor (costCenterId : Nat) (orderType : String) (workOrderId : Nat)
    (state : String) (m : AcctMaterial) : JournalLine :=
  { account_id := if state == "REVERSED" then accountIdInventories else costCenterId
    name := lineName orderType workOrderId m state
    debit := none
    credit := some (if state == "REVERSED" then m.meanPrice else m.meanPrice * m.quantity) }

/-! ## Drift reconciler (OdooSpeakStockSync.js 80-195) -/

/-- One Odoo stock row of the sync pipeline (`fetchStockOdoo` filters
`warehouse_id != false`, so the warehouse display string is present). -/
structure OdooSyncStock where
  id : Nat
  product_display : String
  warehouse_display : String
  quantity : Int
deriving DecidableEq

structure OdooProduct where
  stock_quant_ids : List Nat
  standard_price : Int
  avg_cost : Int
deriving DecidableEq

structure InfraMaterial where
  code : Option String
  id : Nat
deriving DecidableEq

structure InfraWarehouse where
  full_code : String
  warehouse_id : Nat
deriving DecidableEq

/-- The `productMap` lookup: `Map.set` overwrites, so the last product
listing a stock-quant id wins. -/
def productFor (products : List OdooProduct) (sid : Nat) : Option OdooProduct :=
  products.reverse.find? (fun p => p.stock_quant_ids.contains sid)

/-- The `materialMap` lookup (code → material id); built by the `Map`
constructor, so the last material with a given code wins. -/
def materialIdFor (materials : List InfraMaterial) (code : String) : Option Nat :=
  (materials.reverse.find? (fun m => m.code == some code)).map (fun m => m.id)

/-- `String.prototype.includes`: `needle` occurs contiguously in `hay`. -/
def includesAux (needle : List Char) : List Char → Bool
  | [] => needle.isEmpty
  | c :: rest => needle.isPrefixOf (c :: rest) || includesAux needle rest

def strIncludes (hay needle : String) : Bool :=
  includesAux needle.data hay.data

structure ProcessedRow where
  MaterialId : Nat
  StandardCost : Int
  AverageCost : Int
  WarehouseId : Nat
  AvailableQty : Int
deriving DecidableEq

inductive SyncError where
  | emptyInput
  | noBracketTypeError
deriving DecidableEq

/-- Body of the `for (let stock of stockOdoo)` loop of `processOdooData`
(lines 98-123): `ok none` is a `continue`, the error the TypeError of
`match(...)[1]` on a bracketless product display string. -/
def processOdooRow (productsOdoo : List OdooProduct) (materialInfraspeak : List InfraMaterial)
    (warehouseInfraspeak : List InfraWarehouse) (stock : OdooSyncStock) :
    Except SyncError (Option ProcessedRow) :=
  match productFor productsOdoo stock.id with
  | none => Except.ok none
  | some product =>
      match bracketCode stock.product_display with
      | none => Except.error SyncError.noBracketTypeError
      | some refCode =>
          match materialIdFor materialInfraspeak refCode with
          | none => Except.ok none
          | some materialId =>
              let warehouseCode := jsToLower stock.warehouse_display
              match warehouseInfraspeak.find?
                  (fun w => strIncludes (jsToLower w.full_code) warehouseCode) with
              | none => Except.ok none
              | some wd =>
                  Except.ok (some
                    { MaterialId := materialId
                      StandardCost := product.standard_price
                      AverageCost := product.avg_cost
                      WarehouseId := wd.warehouse_id
                      AvailableQty := stock.quantity })

def processOdooRows (productsOdoo : List OdooProduct) (materialInfraspeak : List InfraMaterial)
    (warehouseInfraspeak : List InfraWarehouse) :
    List OdooSyncStock → Except SyncError (List ProcessedRow)
  | [] => Except.ok []
  | stock :: rest =>
      match processOdooRow productsOdoo materialInfraspeak warehouseInfraspeak stock with
      | Except.error e => Except.error e
      | Except.ok row? =>
          match processOdooRows productsOdoo materialInfraspeak warehouseInfraspeak rest with
          | Except.error e => Except.error e
          | Except.ok rows =>
              Except.ok (match row? with
                | none => rows
                | some row => row :: rows)

/-- `processOdooData` (lines 80-125). -/
def processOdooData (stockOdoo : List OdooSyncStock) (productsOdoo : List OdooProduct)
    (materialInfraspeak : List InfraMaterial) (warehouseInfraspeak : List InfraWarehouse) :
    Except SyncError (List ProcessedRow) :=
  if stockOdoo.isEmpty || productsOdoo.isEmpty || materialInfraspeak.isEmpty ||
      warehouseInfraspeak.isEmpty then
    Except.error SyncError.emptyInput
  else
    processOdooRows productsOdoo materialInfraspeak warehouseInfraspeak stockOdoo

/-- One Infraspeak `warehouses/material-quantities` record;
`stock_quantity` already through `parseInt(..., 10)`. -/
structure WarehouseQty where
  material_id : Nat
  warehouse_id : Nat
  stock_quantity : Int
deriving DecidableEq

/-- `getMaterialQuantitiesFromInfraspeak` (lines 174-195): the first
record matching both ids, `null` when there is none. -/
def getMaterialQuantitiesFromInfraspeak (warehouseQuantities : List WarehouseQty)
    (materialId warehouseId : Nat) : Option Int :=
  (warehouseQuantities.find?
      (fun q => q.material_id == materialId && q.warehouse_id == warehouseId)).map
    (fun q => q.stock_quantity)

/-- A posted stock movement: the `stockMovementPayloadAdd` /
`stockMovementPayloadConsume` payload. -/
inductive StockMovement where
  | add (material_id : Nat) (quantity : Int) (warehouse_id : Nat) (mean_price : Int)
  | consume (material_id : Nat) (quantity : Int) (warehouse_id : Nat) (mean_price : Int)
deriving DecidableEq

/-- Body of the per-row callback of `postStockToInfraspeak`
(lines 131-167).  `if (quantityInfraspeak)` is a falsiness test, so a
field record with quantity 0 falls through to the
`=== null || === 0` branch, which posts a full ADD of the Odoo quantity. -/
def postStockRow (warehouseQuantities : List WarehouseQty) (w : ProcessedRow) :
    Option StockMovement :=
  if w.MaterialId == 0 then none
  else
    match getMaterialQuantitiesFromInfraspeak warehouseQuantities w.MaterialId w.WarehouseId with
    | some f =>
        if f ≠ 0 then
          if w.AvailableQty > f then
            some (StockMovement.add w.MaterialId (w.AvailableQty - f) w.WarehouseId w.AverageCost)
          else if w.AvailableQty < f then
            some (StockMovement.consume w.MaterialId (f - w.AvailableQty) w.WarehouseId
              w.AverageCost)
          else none
        else
          some (StockMovement.add w.MaterialId w.AvailableQty w.WarehouseId w.AverageCost)
    | none => some (StockMovement.add w.MaterialId w.AvailableQty w.WarehouseId w.AverageCost)

/-- `postStockToInfraspeak` (lines 129-170): nulls (and caught failures)
are filtered from the posted results. -/
def postStockToInfraspeak (stockToPost : List ProcessedRow)
    (warehouseQuantities : List WarehouseQty) : List StockMovement :=
  stockToPost.filterMap (postStockRow warehouseQuantities)

/-! ## Handler loop (OdooSpeakRequest.js 99-142)

The per-item pipeline (Infraspeak fetch, translation, Odoo posting) is a
chain of remote calls; it is abstracted as `proc`, returning `error` when
an exception is thrown, `ok none` when `postToOdoo` resolves to a falsy
value and `ok (some r)` when it resolves to a truthy response.  The loop
body either returns the HTTP response, or throws: no iteration ever
reaches a second item. -/

structure HttpResponse where
  statusCode : Nat
  message : String
deriving DecidableEq

def createResponse (message : String) (statusCode : Nat) : HttpResponse :=
  { statusCode := statusCode, message := message }

def orderTypeOf (item : ClassifiedItem) : String :=
  if item.related_to_type == "FAILURE" then "Work Order" else "Planned Order"

/-- The `for(let item of checkedWithDynamo)` loop, lines 99-142.  `ok none`
models the loop completing without returning (the handler then resolves
with `undefined`). -/
def handlerLoop {α : Type} (proc : ClassifiedItem → Except String (Option α)) :
    List ClassifiedItem → Except String (Option HttpResponse)
  | [] => Except.ok none
  | item :: _rest =>
      match proc item with
      | Except.error e => Except.error e
      | Except.ok none =>
          Except.error ("Posting to Odoo unsuccessful. Odoo API Response: " ++
            "undefined")
      | Except.ok (some _) =>
          Except.ok (some (createResponse
            ("Successfully posted " ++ orderTypeOf item ++ " Id " ++ item.related_to_id ++
              " to Odoo.") 200))

/-! ## Concrete instances used by counterexamples and witnesses -/

def reqA : ReqAttrs :=
  { request_id := "1"
    type := "MATERIAL_REQUEST"
    related_to_type := "FAILURE"
    related_to_id := "10"
    date_created := "2024-01-01"
    date_updated := "2024-01-02"
    operator_id := "77"
    cost_center_odoo := none
    journal_move_id := none
    stock_move_ids := none }

/-- Same request id as `reqA`, different `date_updated`. -/
def reqB : ReqAttrs :=
  { reqA with date_updated := "2024-02-02" }

/-- A batch carrying the same string-normalised request id twice with two
different `date_updated` values. -/
def dupBatch : List ReqAttrs := [reqA, reqB]

/-- A persisted record whose id `"1"` is present in the demo payload. -/
def recKeep : DynamoRecord := newRecordOfAttrs reqA

/-- A persisted record whose id `"2"` is absent from the demo payload and
not yet reversed. -/
def recGone : DynamoRecord :=
  { newRecordOfAttrs reqB with request_id := "2", related_to_id := "20" }

def demoStore : List DynamoRecord := [recKeep, recGone]

/-- A material entry with a missing material id but a valid code and full
code. -/
def badIdMat : MaterialAttrs :=
  { material_id := none, code := some "C1", full_code := some "F.X", mean_price := 5 }

def c4Included : List IncludedItem := [IncludedItem.material badIdMat]

/-- A material entry with a missing material code. -/
def badCodeMat : MaterialAttrs :=
  { material_id := some 3, code := none, full_code := some "F.X", mean_price := 5 }

def c4wIncluded : List IncludedItem :=
  [IncludedItem.material ⟨some 8, some "OK", some "F.Y", 2⟩, IncludedItem.material badCodeMat]

/-- A material entry with id 4 and two stock entries for it, quantities 3
and 5 with prices 11 and 12. -/
def c6Mat : MaterialAttrs :=
  { material_id := some 4, code := some "C1", full_code := some "F.X", mean_price := 99 }

def c6Included : List IncludedItem :=
  [IncludedItem.stock ⟨4, some 3, 11⟩, IncludedItem.stock ⟨4, some 5, 12⟩,
    IncludedItem.material c6Mat]

/-- The line `processWorkOrderMaterials` derives from `c6Included`. -/
def c6ExpectedLine : MaterialLine :=
  { workOrderId := 7, materialId := 4, materialCode := "C1", folderCode := "F",
    quantity := 8, meanPrice := 11 }

def c5Line : MaterialLine :=
  { workOrderId := 7, materialId := 4, materialCode := "A", folderCode := "F",
    quantity := 1, meanPrice := 5 }

/-- A stock record whose display string has no bracketed code. -/
def c5NoBracket : OdooStockRecord :=
  { id := 1, product_display := "no brackets", product_id0 := 10, location_id0 := 20,
    quantity := 9 }

/-- A stock record matching material code `"A"` with 9 on hand. -/
def c5Match : OdooStockRecord :=
  { id := 2, product_display := "X [A]", product_id0 := 11, location_id0 := 21,
    quantity := 9 }

/-- A stock snapshot whose first record has no bracketed code and whose
second record matches material code `"A"`. -/
def c5BadStock : List OdooStockRecord := [c5NoBracket, c5Match]

def c5GoodStock : List OdooStockRecord := [c5Match]

/-- A mapped (material, warehouse) pair with ledger quantity 0 whose field
record exists and reports quantity 0. -/
def c8Row : ProcessedRow :=
  { MaterialId := 1, StandardCost := 2, AverageCost := 3, WarehouseId := 4, AvailableQty := 0 }

def c8Field : List WarehouseQty :=
  [ { material_id := 1, warehouse_id := 4, stock_quantity := 0 } ]

/-- Ledger 12 against field 7 for material 1 in warehouse 4. -/
def c8wRow : ProcessedRow :=
  { MaterialId := 1, StandardCost := 2, AverageCost := 3, WarehouseId := 4, AvailableQty := 12 }

def c8wField : List WarehouseQty :=
  [ { material_id := 1, warehouse_id := 4, stock_quantity := 7 } ]

def c10Line : MaterialLine :=
  { workOrderId := 9, materialId := 5, materialCode := "B", folderCode := "G",
    quantity := 1, meanPrice := 2 }

/-- A stock record matching material code `"B"`. -/
def c10Match : OdooStockRecord :=
  { id := 4, product_display := "Y [B]", product_id0 := 31, location_id0 := 41,
    quantity := 8 }

def c10Stock : List OdooStockRecord :=
  [ { id := 3, product_display := "plain name", product_id0 := 30, location_id0 := 40,
      quantity := 8 },
    c10Match ]

def c10SyncStock : List OdooSyncStock :=
  [ { id := 1, product_display := "no bracket here", warehouse_display := "WH", quantity := 5 } ]

def c10Products : List OdooProduct :=
  [ { stock_quant_ids := [1], standard_price := 1, avg_cost := 2 } ]

def c10Materials : List InfraMaterial := [ { code := some "B", id := 6 } ]

def c10Warehouses : List InfraWarehouse := [ { full_code := "X.WH", warehouse_id := 2 } ]

/-! ## General fold and store lemmas -/

theorem foldl_preserve {σ α : Type} (f : σ → α → σ) (P : σ → Prop) :
    ∀ (l : List α) (s : σ), (∀ s a, a ∈ l → P s → P (f s a)) → P s → P (l.foldl f s) := by
  intro l
  induction l with
  | nil => intro s _ hP; exact hP
  | cons a rest ih =>
      intro s hstep hP
      exact ih (f s a)
        (fun s' b hb hP' => hstep s' b (List.mem_cons_of_mem a hb) hP')
        (hstep s a (List.mem_cons_self a rest) hP)

theorem foldl_establish {σ α : Type} (f : σ → α → σ) (P R : σ → Prop) (G : α → Prop) :
    ∀ (l : List α) (s : σ),
      (∀ s a, a ∈ l → R s → R (f s a)) →
      (∀ s a, a ∈ l → P s → P (f s a)) →
      (∀ s a, a ∈ l → G a → R s → P (f s a)) →
      R s → (∃ a ∈ l, G a) → P (l.foldl f s) := by
  intro l
  induction l with
  | nil => intro s _ _ _ _ hG; obtain ⟨a, ha, _⟩ := hG; cases ha
  | cons a rest ih =>
      intro s hR hP hest hRs hG
      obtain ⟨b, hb, hGb⟩ := hG
      rcases List.mem_cons.mp hb with hba | hbrest
      · subst hba
        exact foldl_preserve f P rest (f s b)
          (fun s' c hc hP' => hP s' c (List.mem_cons_of_mem b hc) hP')
          (hest s b (List.mem_cons_self b rest) hGb hRs)
      · exact ih (f s a)
          (fun s' c hc hR' => hR s' c (List.mem_cons_of_mem a hc) hR')
          (fun s' c hc hP' => hP s' c (List.mem_cons_of_mem a hc) hP')
          (fun s' c hc hGc hR' => hest s' c (List.mem_cons_of_mem a hc) hGc hR')
          (hR s a (List.mem_cons_self a rest) hRs)
          ⟨b, hbrest, hGb⟩

theorem findReq_some {store : List DynamoRecord} {id : String} {r : DynamoRecord}
    (h : findReq store id = some r) : r.request_id = id := by
  induction store with
  | nil => cases h
  | cons r0 rest ih =>
      by_cases h0 : r0.request_id = id
      · have hb : (r0.request_id == id) = true := beq_iff_eq.mpr h0
        rw [findReq, if_pos hb] at h
        cases h
        exact h0
      · have hb : (r0.request_id == id) = false := beq_eq_false_iff_ne.mpr h0
        rw [findReq, hb] at h
        exact ih (by simpa using h)

theorem findReq_isSome_of_mem {store : List DynamoRecord} {r : DynamoRecord}
    (h : r ∈ store) : ∃ r0, findReq store r.request_id = some r0 := by
  induction store with
  | nil => cases h
  | cons r0 rest ih =>
      by_cases h0 : r0.request_id = r.request_id
      · have hb : (r0.request_id == r.request_id) = true := beq_iff_eq.mpr h0
        exact ⟨r0, by rw [findReq, if_pos hb]⟩
      · have hb : (r0.request_id == r.request_id) = false := beq_eq_false_iff_ne.mpr h0
        rcases List.mem_cons.mp h with h | h
        · exact absurd (congrArg DynamoRecord.request_id h).symm h0
        · obtain ⟨r1, hr1⟩ := ih h
          exact ⟨r1, by rw [findReq, hb]; simpa using hr1⟩

theorem findReq_eq_none {store : List DynamoRecord} {id : String}
    (h : findReq store id = none) : ∀ r ∈ store, r.request_id ≠ id := by
  induction store with
  | nil => intro r hr; cases hr
  | cons r0 rest ih =>
      intro r hr
      by_cases h0 : r0.request_id = id
      · have hb : (r0.request_id == id) = true := beq_iff_eq.mpr h0
        rw [findReq, if_pos hb] at h
        cases h
      · have hb : (r0.request_id == id) = false := beq_eq_false_iff_ne.mpr h0
        rw [findReq, hb] at h
        rcases List.mem_cons.mp hr with hr | hr
        · exact hr ▸ h0
        · exact ih (by simpa using h) r hr

theorem findReq_putRecord_self (store : List DynamoRecord) (rec : DynamoRecord) :
    findReq (putRecord store rec) rec.request_id = some rec := by
  induction store with
  | nil => rw [putRecord, findReq, if_pos (beq_self_eq_true rec.request_id)]
  | cons r rest ih =>
      by_cases h : r.request_id = rec.request_id
      · have hb : (r.request_id == rec.request_id) = true := beq_iff_eq.mpr h
        rw [putRecord, if_pos hb, findReq, if_pos (beq_self_eq_true rec.request_id)]
      · have hb : (r.request_id == rec.request_id) = false := beq_eq_false_iff_ne.mpr h
        rw [putRecord, hb]
        simpa [findReq, hb] using ih

theorem findReq_putRecord_ne (store : List DynamoRecord) (rec : DynamoRecord) (k : String)
    (h : k ≠ rec.request_id) : findReq (putRecord store rec) k = findReq store k := by
  induction store with
  | nil =>
      have hb : (rec.request_id == k) = false := beq_eq_false_iff_ne.mpr (Ne.symm h)
      simp [putRecord, findReq, hb]
  | cons r rest ih =>
      by_cases hr : r.request_id = rec.request_id
      · have hb : (r.request_id == rec.request_id) = true := beq_iff_eq.mpr hr
        have hbk : (r.request_id == k) = false := by
          rw [hr]; exact beq_eq_false_iff_ne.mpr (Ne.symm h)
        have hbr : (rec.request_id == k) = false := beq_eq_false_iff_ne.mpr (Ne.symm h)
        rw [putRecord, if_pos hb]
        simp [findReq, hbk, hbr]
      · have hb : (r.request_id == rec.request_id) = false := beq_eq_false_iff_ne.mpr hr
        rw [putRecord, hb]
        simp only [Bool.false_eq_true, if_false]
        by_cases hk : r.request_id = k
        · have hbk : (r.request_id == k) = true := beq_iff_eq.mpr hk
          simp [findReq, hbk]
        · have hbk : (r.request_id == k) = false := beq_eq_false_iff_ne.mpr hk
          simpa [findReq, hbk] using ih

theorem findReq_mapByKey_self (store : List DynamoRecord) (k : String)
    (g : DynamoRecord → DynamoRecord) (hg : ∀ r, (g r).request_id = r.request_id) :
    findReq (mapByKey store k g) k = (findReq store k).map g := by
  induction store with
  | nil => rfl
  | cons r rest ih =>
      by_cases h : r.request_id = k
      · have hb : (r.request_id == k) = true := beq_iff_eq.mpr h
        have hgb : ((g r).request_id == k) = true := beq_iff_eq.mpr (by rw [hg r]; exact h)
        rw [mapByKey, if_pos hb, findReq, if_pos hgb, findReq, if_pos hb]
        rfl
      · have hb : (r.request_id == k) = false := beq_eq_false_iff_ne.mpr h
        rw [mapByKey, hb]
        simpa [findReq, hb] using ih

theorem findReq_mapByKey_ne (store : List DynamoRecord) (j k : String)
    (g : DynamoRecord → DynamoRecord) (hg : ∀ r, (g r).request_id = r.request_id)
    (h : k ≠ j) : findReq (mapByKey store j g) k = findReq store k := by
  induction store with
  | nil => rfl
  | cons r rest ih =>
      by_cases hj : r.request_id = j
      · have hb : (r.request_id == j) = true := beq_iff_eq.mpr hj
        have hgk : ((g r).request_id == k) = false := by
          apply beq_eq_false_iff_ne.mpr
          rw [hg r, hj]
          exact Ne.symm h
        have hk : (r.request_id == k) = false := by
          apply beq_eq_false_iff_ne.mpr
          rw [hj]
          exact Ne.symm h
        rw [mapByKey, if_pos hb]
        simpa [findReq, hgk, hk] using ih
      · have hb : (r.request_id == j) = false := beq_eq_false_iff_ne.mpr hj
        rw [mapByKey, hb]
        simp only [Bool.false_eq_true, if_false]
        by_cases hk : r.request_id = k
        · have hbk : (r.request_id == k) = true := beq_iff_eq.mpr hk
          simp [findReq, hbk]
        · have hbk : (r.request_id == k) = false := beq_eq_false_iff_ne.mpr hk
          simpa [findReq, hbk] using ih

theorem mem_putRecord {store : List DynamoRecord} {rec r : DynamoRecord}
    (h : r ∈ putRecord store rec) : r = rec ∨ r ∈ store := by
  induction store with
  | nil => simpa [putRecord] using h
  | cons r0 rest ih =>
      by_cases h0 : r0.request_id = rec.request_id
      · have hb : (r0.request_id == rec.request_id) = true := beq_iff_eq.mpr h0
        rw [putRecord, if_pos hb] at h
        rcases List.mem_cons.mp h with h | h
        · exact Or.inl h
        · exact Or.inr (List.mem_cons_of_mem r0 h)
      · have hb : (r0.request_id == rec.request_id) = false := beq_eq_false_iff_ne.mpr h0
        rw [putRecord, hb] at h
        simp only [Bool.false_eq_true, if_false] at h
        rcases List.mem_cons.mp h with h | h
        · exact Or.inr (h ▸ List.mem_cons_self r0 rest)
        · rcases ih h with h | h
          · exact Or.inl h
          · exact Or.inr (List.mem_cons_of_mem r0 h)

theorem mem_mapByKey {store : List DynamoRecord} {k : String}
    {g : DynamoRecord → DynamoRecord} {r : DynamoRecord} (h : r ∈ mapByKey store k g) :
    ∃ r0 ∈ store, (r0.request_id = k ∧ r = g r0) ∨ (r0.request_id ≠ k ∧ r = r0) := by
  induction store with
  | nil => cases h
  | cons r0 rest ih =>
      rw [mapByKey] at h
      rcases List.mem_cons.mp h with h | h
      · by_cases hk : r0.request_id = k
        · have hb : (r0.request_id == k) = true := beq_iff_eq.mpr hk
          rw [if_pos hb] at h
          exact ⟨r0, List.mem_cons_self r0 rest, Or.inl ⟨hk, h⟩⟩
        · have hb : (r0.request_id == k) = false := beq_eq_false_iff_ne.mpr hk
          rw [hb] at h
          simp only [Bool.false_eq_true, if_false] at h
          exact ⟨r0, List.mem_cons_self r0 rest, Or.inr ⟨hk, h⟩⟩
      · obtain ⟨r1, hr1, hor⟩ := ih h
        exact ⟨r1, List.mem_cons_of_mem r0 hr1, hor⟩

/-! ## Characterisation of the classified output -/

theorem processRequestStep_results (snap : List DynamoRecord) (s : RunState) (a : ReqAttrs) :
    (processRequestStep snap s a).results = s.results ++ (emitUpsert snap a).toList := by
  cases hf : findReq snap a.request_id with
  | none => simp [processRequestStep, emitUpsert, hf]
  | some ex =>
      by_cases hd : ex.date_updated = a.date_updated
      · simp [processRequestStep, emitUpsert, hf, hd]
      · simp [processRequestStep, emitUpsert, hf, hd]

theorem foldl_processRequestStep_results (snap : List DynamoRecord) :
    ∀ (payload : List ReqAttrs) (s : RunState),
      (payload.foldl (processRequestStep snap) s).results =
        s.results ++ payload.filterMap (emitUpsert snap) := by
  intro payload
  induction payload with
  | nil => intro s; simp
  | cons a rest ih =>
      intro s
      rw [List.foldl_cons, ih, processRequestStep_results]
      cases h : emitUpsert snap a <;> simp [List.filterMap_cons, h]

theorem reverseStep_results (ids : List String) (s : RunState) (r : DynamoRecord) :
    (reverseStep ids s r).results = s.results ++ (emitReverse ids r).toList := by
  by_cases h : r.request_id ∈ ids ∨ r.reversed = true
  · simp [reverseStep, emitReverse, h]
  · simp [reverseStep, emitReverse, h]

theorem foldl_reverseStep_results (ids : List String) :
    ∀ (snap : List DynamoRecord) (s : RunState),
      (snap.foldl (reverseStep ids) s).results =
        s.results ++ snap.filterMap (emitReverse ids) := by
  intro snap
  induction snap with
  | nil => intro s; simp
  | cons r rest ih =>
      intro s
      rw [List.foldl_cons, ih, reverseStep_results]
      cases h : emitReverse ids r <;> simp [List.filterMap_cons, h]

theorem checkAndUpsertRequests_results (payload : List ReqAttrs) (store : List DynamoRecord) :
    (store.foldl (reverseStep (payload.map (fun r => r.request_id)))
        (payload.foldl (processRequestStep store) ⟨store, []⟩)).results =
      emittedItems payload store := by
  rw [foldl_reverseStep_results, foldl_processRequestStep_results]
  simp [emittedItems]

theorem checkAndUpsertRequests_snd (payload : List ReqAttrs) (store : List DynamoRecord) :
    (checkAndUpsertRequests payload store).2 =
      if emittedItems payload store = [] then none
      else some (emittedItems payload store) := by
  simp only [checkAndUpsertRequests]
  rw [checkAndUpsertRequests_results]
  by_cases hE : emittedItems payload store = []
  · simp [hE]
  · simp [hE, List.isEmpty_eq_false_iff_exists_mem.mpr
      (List.exists_mem_of_ne_nil (emittedItems payload store) hE)]

theorem checkAndUpsertRequests_fst (payload : List ReqAttrs) (store : List DynamoRecord) :
    (checkAndUpsertRequests payload store).1 =
      (store.foldl (reverseStep (payload.map (fun r => r.request_id)))
        (payload.foldl (processRequestStep store) ⟨store, []⟩)).store := by
  rfl

theorem emitUpsert_some_id {snap : List DynamoRecord} {a : ReqAttrs} {item : ClassifiedItem}
    (h : emitUpsert snap a = some item) : item.request_id = a.request_id := by
  unfold emitUpsert at h
  cases hf : findReq snap a.request_id with
  | none => rw [hf] at h; cases h; rfl
  | some ex =>
      rw [hf] at h
      by_cases hd : ex.date_updated = a.date_updated
      · simp [hd] at h
      · simp only [hd, ne_eq, not_false_iff, if_true, Option.some_inj] at h
        cases h; rfl

theorem emitReverse_some {ids : List String} {r : DynamoRecord} {item : ClassifiedItem}
    (h : emitReverse ids r = some item) :
    item = reversedItem r ∧ r.request_id ∉ ids ∧ r.reversed = false := by
  unfold emitReverse at h
  by_cases hc : r.request_id ∈ ids ∨ r.reversed = true
  · simp [hc] at h
  · push_neg at hc
    refine ⟨?_, hc.1, by simpa using hc.2⟩
    simp [hc.1, hc.2] at h
    exact h.symm

/-- C1: for every incoming batch and persisted store state,
`checkAndUpsertRequests` classifies each incoming request by its
string-normalised `request_id`: with no persisted record it inserts one
(state COMPLETED, `reversed: false`) and emits an item with state
COMPLETED, upserted INSERTED and an empty `stock_move_ids` list; with a
persisted record whose `date_updated` differs it updates the record and
emits an UPDATED item carrying the persisted record's `stock_move_ids`;
with an unchanged `date_updated` it emits nothing for that id; and it
returns null exactly when no classified item was produced. -/
theorem checkAndUpsertRequests_classification (payload : List ReqAttrs)
    (store : List DynamoRecord) :
    ((checkAndUpsertRequests payload store).2 = none ↔ emittedItems payload store = []) ∧
    (emittedItems payload store ≠ [] →
      (checkAndUpsertRequests payload store).2 = some (emittedItems payload store)) ∧
    (∀ a : ReqAttrs, findReq store a.request_id = none →
      emitUpsert store a = some (insertedItem a) ∧
      (insertedItem a).state = "COMPLETED" ∧
      (insertedItem a).upserted = some "INSERTED" ∧
      (insertedItem a).stock_move_ids = some [] ∧
      (newRecordOfAttrs a).state = "COMPLETED" ∧
      (newRecordOfAttrs a).reversed = false ∧
      ∀ s : RunState, processRequestStep store s a =
        ⟨insertRequestToDynamo s.store a, s.results ++ [insertedItem a]⟩) ∧
    (∀ a : ReqAttrs, ∀ ex : DynamoRecord, findReq store a.request_id = some ex →
      (ex.date_updated ≠ a.date_updated →
        emitUpsert store a = some (updatedItem a ex) ∧
        (updatedItem a ex).state = "COMPLETED" ∧
        (updatedItem a ex).upserted = some "UPDATED" ∧
        (updatedItem a ex).stock_move_ids = some (ex.stock_move_ids.getD []) ∧
        ∀ s : RunState, processRequestStep store s a =
          ⟨updateRequestInDynamo
              (if ex.reversed then resetReversedFlag s.store a.request_id else s.store)
              a.request_id a,
            s.results ++ [updatedItem a ex]⟩) ∧
      (ex.date_updated = a.date_updated →
        emitUpsert store a = none ∧
        ∀ s : RunState, (processRequestStep store s a).results = s.results)) := by
  refine ⟨?_, ?_, ?_, ?_⟩
  · rw [checkAndUpsertRequests_snd]
    by_cases hE : emittedItems payload store = [] <;> simp [hE]
  · intro hE
    rw [checkAndUpsertRequests_snd, if_neg hE]
  · intro a hf
    refine ⟨by simp [emitUpsert, hf], rfl, rfl, rfl, rfl, rfl, ?_⟩
    intro s
    simp [processRequestStep, hf]
  · intro a ex hf
    constructor
    · intro hd
      refine ⟨by simp [emitUpsert, hf, hd], rfl, rfl, rfl, ?_⟩
      intro s
      simp [processRequestStep, hf, hd]
    · intro hd
      refine ⟨by simp [emitUpsert, hf, hd], ?_⟩
      intro s
      simp [processRequestStep, hf, hd]

/-- Witness for C1 at a concrete batch over the empty store. -/
theorem checkAndUpsertRequests_classification_witness :
    (checkAndUpsertRequests [reqA] []).2 = some [insertedItem reqA] := by
  have h := (checkAndUpsertRequests_classification [reqA] []).2.1 (by decide)
  rw [h]
  decide

/-! ## Store evolution through one reconciliation run -/

theorem processRequestStep_store (snap : List DynamoRecord) (s : RunState) (a : ReqAttrs) :
    (processRequestStep snap s a).store =
      match findReq snap a.request_id with
      | none => insertRequestToDynamo s.store a
      | some ex =>
          if ex.date_updated ≠ a.date_updated then
            updateRequestInDynamo
              (if ex.reversed then resetReversedFlag s.store a.request_id else s.store)
              a.request_id a
          else if ex.reversed then resetReversedFlag s.store a.request_id else s.store := by
  cases hf : findReq snap a.request_id with
  | none => simp [processRequestStep, hf]
  | some ex =>
      by_cases hd : ex.date_updated = a.date_updated <;>
        by_cases hr : ex.reversed <;> simp [processRequestStep, hf, hd, hr]

theorem reverseStep_store_cases (ids : List String) (s : RunState) (item : DynamoRecord) :
    (reverseStep ids s item).store = s.store ∨
    (reverseStep ids s item).store = markAsReversed s.store item.request_id := by
  by_cases hc : item.request_id ∈ ids ∨ item.reversed = true
  · exact Or.inl (by simp [reverseStep, hc])
  · exact Or.inr (by simp [reverseStep, hc])

theorem reverseStep_store_fired (ids : List String) (s : RunState) (item : DynamoRecord)
    (hids : item.request_id ∉ ids) (hrev : item.reversed = false) :
    (reverseStep ids s item).store = markAsReversed s.store item.request_id := by
  simp [reverseStep, hids, hrev]

theorem reverseStep_store_skip (ids : List String) (s : RunState) (item : DynamoRecord)
    (hc : item.request_id ∈ ids ∨ item.reversed = true) :
    (reverseStep ids s item).store = s.store := by
  simp [reverseStep, hc]

theorem findReq_resetReversedFlag_self (store : List DynamoRecord) (k : String) :
    findReq (resetReversedFlag store k) k =
      (findReq store k).map (fun r => { r with reversed := false }) :=
  findReq_mapByKey_self store k (fun r => { r with reversed := false }) (fun _ => rfl)

theorem findReq_resetReversedFlag_ne (store : List DynamoRecord) (j k : String) (h : k ≠ j) :
    findReq (resetReversedFlag store j) k = findReq store k :=
  findReq_mapByKey_ne store j k (fun r => { r with reversed := false }) (fun _ => rfl) h

theorem findReq_markAsReversed_self (store : List DynamoRecord) (k : String) :
    findReq (markAsReversed store k) k =
      (findReq store k).map (fun r => { r with reversed := true }) :=
  findReq_mapByKey_self store k (fun r => { r with reversed := true }) (fun _ => rfl)

theorem findReq_markAsReversed_ne (store : List DynamoRecord) (j k : String) (h : k ≠ j) :
    findReq (markAsReversed store j) k = findReq store k :=
  findReq_mapByKey_ne store j k (fun r => { r with reversed := true }) (fun _ => rfl) h

theorem findReq_updateRequestInDynamo_self (store : List DynamoRecord) (k : String)
    (a : ReqAttrs) :
    findReq (updateRequestInDynamo store k a) k = (findReq store k).map (updatedRecord a) :=
  findReq_mapByKey_self store k (updatedRecord a) (fun _ => rfl)

theorem findReq_updateRequestInDynamo_ne (store : List DynamoRecord) (j k : String)
    (a : ReqAttrs) (h : k ≠ j) :
    findReq (updateRequestInDynamo store j a) k = findReq store k :=
  findReq_mapByKey_ne store j k (updatedRecord a) (fun _ => rfl) h

theorem findReq_insertRequestToDynamo_self (store : List DynamoRecord) (a : ReqAttrs) :
    findReq (insertRequestToDynamo store a) a.request_id = some (newRecordOfAttrs a) :=
  findReq_putRecord_self store (newRecordOfAttrs a)

theorem findReq_insertRequestToDynamo_ne (store : List DynamoRecord) (a : ReqAttrs)
    (k : String) (h : k ≠ a.request_id) :
    findReq (insertRequestToDynamo store a) k = findReq store k :=
  findReq_putRecord_ne store (newRecordOfAttrs a) k h

theorem processRequestStep_findReq_ne (snap : List DynamoRecord) (s : RunState) (a : ReqAttrs)
    (k : String) (h : k ≠ a.request_id) :
    findReq (processRequestStep snap s a).store k = findReq s.store k := by
  rw [processRequestStep_store]
  cases hf : findReq snap a.request_id with
  | none => exact findReq_insertRequestToDynamo_ne s.store a k h
  | some ex =>
      have hres : findReq (if ex.reversed then resetReversedFlag s.store a.request_id
          else s.store) k = findReq s.store k := by
        by_cases hr : ex.reversed
        · rw [if_pos hr]
          exact findReq_resetReversedFlag_ne s.store a.request_id k h
        · rw [if_neg hr]
      by_cases hd : ex.date_updated = a.date_updated
      · simpa [hd] using hres
      · simp only [hd, ne_eq, not_false_iff, if_true]
        rw [findReq_updateRequestInDynamo_ne _ a.request_id k a h]
        exact hres

theorem processRequestStep_existsAt (snap : List DynamoRecord) (s : RunState) (a : ReqAttrs)
    (k : String) (hex : ∃ r0, findReq s.store k = some r0) :
    ∃ r0, findReq (processRequestStep snap s a).store k = some r0 := by
  by_cases hak : a.request_id = k
  · subst hak
    rw [processRequestStep_store]
    cases hf : findReq snap a.request_id with
    | none => exact ⟨newRecordOfAttrs a, findReq_insertRequestToDynamo_self s.store a⟩
    | some ex =>
        obtain ⟨r0, hr0⟩ := hex
        have hres : ∃ r1, findReq (if ex.reversed then resetReversedFlag s.store a.request_id
            else s.store) a.request_id = some r1 := by
          by_cases hr : ex.reversed
          · refine ⟨{ r0 with reversed := false }, ?_⟩
            rw [if_pos hr, findReq_resetReversedFlag_self, hr0]
            rfl
          · exact ⟨r0, by rw [if_neg hr]; exact hr0⟩
        obtain ⟨r1, hr1⟩ := hres
        by_cases hd : ex.date_updated = a.date_updated
        · exact ⟨r1, by simpa [hd] using hr1⟩
        · refine ⟨updatedRecord a r1, ?_⟩
          simp only [hd, ne_eq, not_false_iff, if_true]
          rw [findReq_updateRequestInDynamo_self, hr1]
          rfl
  · rw [processRequestStep_findReq_ne snap s a k (Ne.symm hak)]
    exact hex

/-- After a step whose request carries key `k`, every record found under
`k` has `reversed = false`, except in the no-op case (snapshot record not
reversed and date unchanged), where the pre-state property is used. -/
theorem processRequestStep_reversed_false (snap : List DynamoRecord) (s : RunState)
    (a : ReqAttrs) (k : String) (hak : a.request_id = k)
    (hprev : ∀ ex, findReq snap k = some ex → ex.reversed = false →
      ex.date_updated = a.date_updated →
      ∀ r', findReq s.store k = some r' → r'.reversed = false) :
    ∀ r', findReq (processRequestStep snap s a).store k = some r' → r'.reversed = false := by
  subst hak
  intro r' hr'
  rw [processRequestStep_store] at hr'
  cases hf : findReq snap a.request_id with
  | none =>
      rw [hf, findReq_insertRequestToDynamo_self] at hr'
      cases hr'
      rfl
  | some ex =>
      rw [hf] at hr'
      by_cases hd : ex.date_updated = a.date_updated
      · simp only [hd, ne_eq, not_true_eq_false, if_false] at hr'
        by_cases hrv : ex.reversed
        · rw [if_pos hrv, findReq_resetReversedFlag_self] at hr'
          cases h0 : findReq s.store a.request_id with
          | none => rw [h0] at hr'; cases hr'
          | some r0 => rw [h0] at hr'; cases hr'; rfl
        · rw [if_neg hrv] at hr'
          have hrvf : ex.reversed = false := by
            cases hb : ex.reversed
            · rfl
            · exact absurd hb hrv
          exact hprev ex hf hrvf hd r' hr'
      · simp only [hd, ne_eq, not_false_iff, if_true] at hr'
        rw [findReq_updateRequestInDynamo_self] at hr'
        cases h0 : findReq (if ex.reversed then resetReversedFlag s.store a.request_id
            else s.store) a.request_id with
        | none => rw [h0] at hr'; cases hr'
        | some r0 => rw [h0] at hr'; cases hr'; rfl

/-- After a step whose request carries key `k` and `date_updated = d`, the
record found under `k` carries date `d`, except in the no-op case, where
the pre-state property is used. -/
theorem processRequestStep_date (snap : List DynamoRecord) (s : RunState) (a : ReqAttrs)
    (k d : String) (hak : a.request_id = k) (had : a.date_updated = d)
    (hex : findReq snap k = none ∨ ∃ r0, findReq s.store k = some r0)
    (hprev : ∀ ex, findReq snap k = some ex → ex.date_updated = a.date_updated →
      ∃ r', findReq s.store k = some r' ∧ r'.date_updated = d) :
    ∃ r', findReq (processRequestStep snap s a).store k = some r' ∧ r'.date_updated = d := by
  subst hak
  rw [processRequestStep_store]
  cases hf : findReq snap a.request_id with
  | none => exact ⟨newRecordOfAttrs a, findReq_insertRequestToDynamo_self s.store a, had⟩
  | some ex =>
      rcases hex with hex | ⟨r0, hr0⟩
      · rw [hf] at hex; cases hex
      by_cases hd : ex.date_updated = a.date_updated
      · obtain ⟨r', hr', hrd⟩ := hprev ex hf hd
        simp only [hd, ne_eq, not_true_eq_false, if_false]
        by_cases hrv : ex.reversed
        · refine ⟨{ r' with reversed := false }, ?_, hrd⟩
          rw [if_pos hrv, findReq_resetReversedFlag_self, hr']
          rfl
        · exact ⟨r', by rw [if_neg hrv]; exact hr', hrd⟩
      · simp only [hd, ne_eq, not_false_iff, if_true]
        have hres : ∃ r1, findReq (if ex.reversed then resetReversedFlag s.store a.request_id
            else s.store) a.request_id = some r1 := by
          by_cases hrv : ex.reversed
          · refine ⟨{ r0 with reversed := false }, ?_⟩
            rw [if_pos hrv, findReq_resetReversedFlag_self, hr0]
            rfl
          · exact ⟨r0, by rw [if_neg hrv]; exact hr0⟩
        obtain ⟨r1, hr1⟩ := hres
        refine ⟨updatedRecord a r1, ?_, had⟩
        rw [findReq_updateRequestInDynamo_self, hr1]
        rfl

theorem phase1_existsAt (snap : List DynamoRecord) (payload : List ReqAttrs) (k : String)
    (hex : ∃ r0, findReq snap k = some r0) :
    ∃ r0, findReq (payload.foldl (processRequestStep snap) ⟨snap, []⟩).store k = some r0 :=
  foldl_preserve (processRequestStep snap) (fun st => ∃ r0, findReq st.store k = some r0)
    payload ⟨snap, []⟩ (fun s a _ h => processRequestStep_existsAt snap s a k h) hex

/-- After the upsert loop, every record found under a key occurring in the
payload has `reversed = false`. -/
theorem phase1_reversed_false (snap : List DynamoRecord) (payload : List ReqAttrs) (k : String)
    (hk : ∃ a ∈ payload, a.request_id = k) :
    ∀ r', findReq (payload.foldl (processRequestStep snap) ⟨snap, []⟩).store k = some r' →
      r'.reversed = false := by
  have hpres : ∀ (s : RunState) (a : ReqAttrs), a ∈ payload →
      (∀ r', findReq s.store k = some r' → r'.reversed = false) →
      ∀ r', findReq (processRequestStep snap s a).store k = some r' → r'.reversed = false := by
    intro s a _ hP
    by_cases hak : a.request_id = k
    · exact processRequestStep_reversed_false snap s a k hak (fun ex _ _ _ => hP)
    · intro r' hr'
      rw [processRequestStep_findReq_ne snap s a k (Ne.symm hak)] at hr'
      exact hP r' hr'
  cases hsnap : findReq snap k with
  | none =>
      exact foldl_establish (processRequestStep snap)
        (fun st => ∀ r', findReq st.store k = some r' → r'.reversed = false)
        (fun _ => True) (fun a => a.request_id = k) payload ⟨snap, []⟩
        (fun _ _ _ _ => trivial) hpres
        (fun s a _ hGa _ =>
          processRequestStep_reversed_false snap s a k hGa
            (fun ex hex _ _ => by rw [hsnap] at hex; cases hex))
        trivial hk
  | some ex =>
      cases hrv : ex.reversed with
      | true =>
          exact foldl_establish (processRequestStep snap)
            (fun st => ∀ r', findReq st.store k = some r' → r'.reversed = false)
            (fun _ => True) (fun a => a.request_id = k) payload ⟨snap, []⟩
            (fun _ _ _ _ => trivial) hpres
            (fun s a _ hGa _ =>
              processRequestStep_reversed_false snap s a k hGa
                (fun ex2 hex2 hrv2 _ _ => by
                  rw [hsnap] at hex2
                  cases hex2
                  rw [hrv] at hrv2
                  cases hrv2))
            trivial hk
      | false =>
          refine foldl_preserve (processRequestStep snap)
            (fun st => ∀ r', findReq st.store k = some r' → r'.reversed = false)
            payload ⟨snap, []⟩ hpres ?_
          intro r' hr'
          rw [show (RunState.mk snap []).store = snap from rfl, hsnap] at hr'
          cases hr'
          exact hrv

/-- After the upsert loop, when every payload entry with key `k` carries
`date_updated = d` and at least one such entry exists, the record found
under `k` carries date `d`. -/
theorem phase1_date (snap : List DynamoRecord) (payload : List ReqAttrs) (k d : String)
    (hd : ∀ a ∈ payload, a.request_id = k → a.date_updated = d)
    (hk : ∃ a ∈ payload, a.request_id = k) :
    ∃ r', findReq (payload.foldl (processRequestStep snap) ⟨snap, []⟩).store k = some r' ∧
      r'.date_updated = d := by
  cases hsnap : findReq snap k with
  | none =>
      refine foldl_establish (processRequestStep snap)
        (fun st => ∃ r', findReq st.store k = some r' ∧ r'.date_updated = d)
        (fun _ => True) (fun a => a.request_id = k) payload ⟨snap, []⟩
        (fun _ _ _ _ => trivial) ?_ ?_ trivial hk
      · intro s a ha hP
        by_cases hak : a.request_id = k
        · exact processRequestStep_date snap s a k d hak (hd a ha hak) (Or.inl hsnap)
            (fun ex hex _ => by rw [hsnap] at hex; cases hex)
        · obtain ⟨r', hr', hrd⟩ := hP
          exact ⟨r', by
            rw [processRequestStep_findReq_ne snap s a k (Ne.symm hak)]; exact hr', hrd⟩
      · intro s a ha hGa _
        exact processRequestStep_date snap s a k d hGa (hd a ha hGa) (Or.inl hsnap)
          (fun ex hex _ => by rw [hsnap] at hex; cases hex)
  | some ex =>
      by_cases hexd : ex.date_updated = d
      · refine foldl_preserve (processRequestStep snap)
          (fun st => ∃ r', findReq st.store k = some r' ∧ r'.date_updated = d)
          payload ⟨snap, []⟩ ?_ ⟨ex, hsnap, hexd⟩
        intro s a ha hP
        by_cases hak : a.request_id = k
        · refine processRequestStep_date snap s a k d hak (hd a ha hak)
            (Or.inr ?_) (fun _ _ _ => hP)
          obtain ⟨r', hr', _⟩ := hP
          exact ⟨r', hr'⟩
        · obtain ⟨r', hr', hrd⟩ := hP
          exact ⟨r', by
            rw [processRequestStep_findReq_ne snap s a k (Ne.symm hak)]; exact hr', hrd⟩
      · refine foldl_establish (processRequestStep snap)
          (fun st => ∃ r', findReq st.store k = some r' ∧ r'.date_updated = d)
          (fun st => ∃ r0, findReq st.store k = some r0)
          (fun a => a.request_id = k) payload ⟨snap, []⟩
          (fun s a _ hR => processRequestStep_existsAt snap s a k hR) ?_ ?_
          ⟨ex, hsnap⟩ hk
        · intro s a ha hP
          by_cases hak : a.request_id = k
          · refine processRequestStep_date snap s a k d hak (hd a ha hak)
              (Or.inr ?_) ?_
            · obtain ⟨r', hr', _⟩ := hP
              exact ⟨r', hr'⟩
            · intro ex2 hex2 hdate2
              rw [hsnap] at hex2
              cases hex2
              exact absurd (hdate2.trans (hd a ha hak)) hexd
          · obtain ⟨r', hr', hrd⟩ := hP
            exact ⟨r', by
              rw [processRequestStep_findReq_ne snap s a k (Ne.symm hak)]; exact hr', hrd⟩
        · intro s a ha hGa hR
          refine processRequestStep_date snap s a k d hGa (hd a ha hGa) (Or.inr hR) ?_
          intro ex2 hex2 hdate2
          rw [hsnap] at hex2
          cases hex2
          exact absurd (hdate2.trans (hd a ha hGa)) hexd

/-- Records of the upsert loop's output store whose key does not occur in
the payload are records of the initial snapshot, untouched. -/
theorem phase1_mem_untouched (snap : List DynamoRecord) (payload : List ReqAttrs) :
    ∀ r' ∈ (payload.foldl (processRequestStep snap) ⟨snap, []⟩).store,
      r'.request_id ∉ payload.map (fun a => a.request_id) → r' ∈ snap := by
  refine foldl_preserve (processRequestStep snap)
    (fun st => ∀ r' ∈ st.store, r'.request_id ∉ payload.map (fun a => a.request_id) →
      r' ∈ snap)
    payload ⟨snap, []⟩ ?_ (fun r' hr' _ => hr')
  intro s a ha hP r' hr' hnotin
  have hspared : r'.request_id ≠ a.request_id := by
    intro he
    exact hnotin (List.mem_map.mpr ⟨a, ha, he.symm⟩)
  rw [processRequestStep_store] at hr'
  cases hf : findReq snap a.request_id with
  | none =>
      rw [hf] at hr'
      rcases mem_putRecord hr' with he | hmem
      · exact absurd (congrArg DynamoRecord.request_id he) hspared
      · exact hP r' hmem hnotin
  | some ex =>
      rw [hf] at hr'
      have hmem1 : ∀ st1, r' ∈ mapByKey st1 a.request_id (updatedRecord a) →
          r' ∈ st1 := by
        intro st1 hm
        rcases mem_mapByKey hm with ⟨r0, hr0, ⟨hk0, he0⟩ | ⟨_, he0⟩⟩
        · exact absurd (by rw [he0]; exact hk0) hspared
        · exact he0 ▸ hr0
      have hmem2 : ∀ st1, r' ∈ mapByKey st1 a.request_id
          (fun r => { r with reversed := false }) → r' ∈ st1 := by
        intro st1 hm
        rcases mem_mapByKey hm with ⟨r0, hr0, ⟨hk0, he0⟩ | ⟨_, he0⟩⟩
        · exact absurd (by rw [he0]; exact hk0) hspared
        · exact he0 ▸ hr0
      by_cases hd : ex.date_updated = a.date_updated
      · simp only [hd, ne_eq, not_true_eq_false, if_false] at hr'
        by_cases hrv : ex.reversed
        · rw [if_pos hrv] at hr'
          exact hP r' (hmem2 s.store hr') hnotin
        · rw [if_neg hrv] at hr'
          exact hP r' hr' hnotin
      · simp only [hd, ne_eq, not_false_iff, if_true] at hr'
        have hr'' := hmem1 _ hr'
        by_cases hrv : ex.reversed
        · rw [if_pos hrv] at hr''
          exact hP r' (hmem2 s.store hr'') hnotin
        · rw [if_neg hrv] at hr''
          exact hP r' hr'' hnotin

theorem foldl_reverseStep_findReq_mem (ids : List String) (k : String) (hk : k ∈ ids) :
    ∀ (snap2 : List DynamoRecord) (s : RunState),
      findReq (snap2.foldl (reverseStep ids) s).store k = findReq s.store k := by
  intro snap2
  induction snap2 with
  | nil => intro s; rfl
  | cons item rest ih =>
      intro s
      rw [List.foldl_cons, ih]
      by_cases hc : item.request_id ∈ ids ∨ item.reversed = true
      · rw [reverseStep_store_skip ids s item hc]
      · push_neg at hc
        have hrev : item.reversed = false := by
          cases hb : item.reversed
          · rfl
          · exact absurd hb hc.2
        rw [reverseStep_store_fired ids s item hc.1 hrev]
        have hne : k ≠ item.request_id := fun he => hc.1 (he ▸ hk)
        exact findReq_markAsReversed_ne s.store item.request_id k hne

theorem reverseStep_existsAt (ids : List String) (s : RunState) (item : DynamoRecord)
    (k : String) (hex : ∃ r0, findReq s.store k = some r0) :
    ∃ r0, findReq (reverseStep ids s item).store k = some r0 := by
  rcases reverseStep_store_cases ids s item with hs | hs
  · rw [hs]; exact hex
  · rw [hs]
    obtain ⟨r0, hr0⟩ := hex
    by_cases hk : k = item.request_id
    · subst hk
      exact ⟨{ r0 with reversed := true }, by rw [findReq_markAsReversed_self, hr0]; rfl⟩
    · exact ⟨r0, by rw [findReq_markAsReversed_ne s.store item.request_id k hk]; exact hr0⟩

theorem reverseStep_keeps_marked (ids : List String) (s : RunState) (item : DynamoRecord)
    (k : String)
    (hP : ∃ r', findReq s.store k = some r' ∧ r'.reversed = true) :
    ∃ r', findReq (reverseStep ids s item).store k = some r' ∧ r'.reversed = true := by
  obtain ⟨r', hr', ht⟩ := hP
  rcases reverseStep_store_cases ids s item with hs | hs
  · exact ⟨r', by rw [hs]; exact hr', ht⟩
  · by_cases hk : k = item.request_id
    · subst hk
      exact ⟨{ r' with reversed := true },
        by rw [hs, findReq_markAsReversed_self, hr']; rfl, rfl⟩
    · exact ⟨r',
        by rw [hs, findReq_markAsReversed_ne s.store item.request_id k hk]; exact hr', ht⟩

theorem foldl_reverseStep_existsAt (ids : List String) (snap2 : List DynamoRecord)
    (s : RunState) (k : String) (hex : ∃ r0, findReq s.store k = some r0) :
    ∃ r0, findReq (snap2.foldl (reverseStep ids) s).store k = some r0 :=
  foldl_preserve (reverseStep ids) (fun st => ∃ r0, findReq st.store k = some r0)
    snap2 s (fun s' item _ h => reverseStep_existsAt ids s' item k h) hex

/-- The retraction loop marks the record of an absent, not-yet-reversed
snapshot entry. -/
theorem phase2_marks (ids : List String) (snap2 : List DynamoRecord) (r : DynamoRecord)
    (hmem : r ∈ snap2) (hids : r.request_id ∉ ids) (hrev : r.reversed = false)
    (s : RunState) (hex : ∃ r0, findReq s.store r.request_id = some r0) :
    ∃ r', findReq (snap2.foldl (reverseStep ids) s).store r.request_id = some r' ∧
      r'.reversed = true := by
  refine foldl_establish (reverseStep ids)
    (fun st => ∃ r', findReq st.store r.request_id = some r' ∧ r'.reversed = true)
    (fun st => ∃ r0, findReq st.store r.request_id = some r0)
    (fun item => item = r) snap2 s
    (fun s' item _ hR => reverseStep_existsAt ids s' item r.request_id hR)
    (fun s' item _ hP => reverseStep_keeps_marked ids s' item r.request_id hP)
    ?_ hex ⟨r, hmem, rfl⟩
  intro s' item _ hG hR
  subst hG
  obtain ⟨r0, hr0⟩ := hR
  refine ⟨{ r0 with reversed := true }, ?_, rfl⟩
  rw [reverseStep_store_fired ids s' item hids hrev, findReq_markAsReversed_self, hr0]
  rfl

/-- After the retraction loop, every store record whose key is absent from
the payload is marked reversed, provided every unmarked such record is
still to be visited. -/
theorem phase2_all_reversed (ids : List String) :
    ∀ (snap2 : List DynamoRecord) (s : RunState),
      (∀ r' ∈ s.store, r'.request_id ∉ ids →
        (r'.reversed = true ∨ ∃ rr ∈ snap2, rr.request_id = r'.request_id ∧
          rr.reversed = false)) →
      ∀ r'' ∈ (snap2.foldl (reverseStep ids) s).store,
        r''.request_id ∉ ids → r''.reversed = true := by
  intro snap2
  induction snap2 with
  | nil =>
      intro s h r'' hmem hid
      rcases h r'' hmem hid with h1 | ⟨rr, hrr, _⟩
      · exact h1
      · cases hrr
  | cons rr0 rest ih =>
      intro s h
      rw [List.foldl_cons]
      apply ih
      intro r' hr' hid
      by_cases hc : rr0.request_id ∈ ids ∨ rr0.reversed = true
      · rw [reverseStep_store_skip ids s rr0 hc] at hr'
        rcases h r' hr' hid with h1 | ⟨rr, hrrmem, hkey, hrev⟩
        · exact Or.inl h1
        · rcases List.mem_cons.mp hrrmem with he | he
          · subst he
            rcases hc with hc | hc
            · exact absurd (hkey ▸ hc) hid
            · rw [hrev] at hc; cases hc
          · exact Or.inr ⟨rr, he, hkey, hrev⟩
      · push_neg at hc
        have hrev0 : rr0.reversed = false := by
          cases hb : rr0.reversed
          · rfl
          · exact absurd hb hc.2
        rw [reverseStep_store_fired ids s rr0 hc.1 hrev0] at hr'
        rcases mem_mapByKey hr' with ⟨r0, hr0, ⟨_, he0⟩ | ⟨hk0, he0⟩⟩
        · exact Or.inl (by rw [he0])
        · rw [he0]
          rw [he0] at hid
          rcases h r0 hr0 hid with h1 | ⟨rr, hrrmem, hkey, hrev⟩
          · exact Or.inl h1
          · rcases List.mem_cons.mp hrrmem with he | he
            · exact absurd (he ▸ hkey).symm hk0
            · exact Or.inr ⟨rr, he, hkey, hrev⟩

/-- C2: after one run of `checkAndUpsertRequests` over a store with unique
keys: every persisted record absent from the batch and not already
reversed ends reversed with a REVERSED item emitted; every persisted
record present in the batch ends with `reversed = false`; records already
reversed and still absent produce no item; and no persisted record is
deleted. -/
theorem checkAndUpsertRequests_reversal (payload : List ReqAttrs) (store : List DynamoRecord)
    (hnd : (store.map (fun r => r.request_id)).Nodup) :
    (∀ r ∈ store, r.request_id ∉ payload.map (fun a => a.request_id) → r.reversed = false →
      (∃ r', findReq (checkAndUpsertRequests payload store).1 r.request_id = some r' ∧
          r'.reversed = true) ∧
      ∃ items, (checkAndUpsertRequests payload store).2 = some items ∧
        reversedItem r ∈ items ∧ (reversedItem r).state = "REVERSED") ∧
    (∀ r ∈ store, r.request_id ∈ payload.map (fun a => a.request_id) →
      ∀ r', findReq (checkAndUpsertRequests payload store).1 r.request_id = some r' →
        r'.reversed = false) ∧
    (∀ r ∈ store, r.request_id ∉ payload.map (fun a => a.request_id) → r.reversed = true →
      ∀ items, (checkAndUpsertRequests payload store).2 = some items →
        ∀ item ∈ items, item.request_id ≠ r.request_id) ∧
    (∀ r ∈ store, ∃ r', findReq (checkAndUpsertRequests payload store).1 r.request_id =
      some r') := by
  refine ⟨?_, ?_, ?_, ?_⟩
  · intro r hr hnotin hrev
    constructor
    · rw [checkAndUpsertRequests_fst]
      exact phase2_marks _ store r hr hnotin hrev _
        (phase1_existsAt store payload r.request_id (findReq_isSome_of_mem hr))
    · have hitem : emitReverse (payload.map (fun a => a.request_id)) r =
          some (reversedItem r) := by
        simp [emitReverse, hnotin, hrev]
      have hmemitems : reversedItem r ∈ emittedItems payload store :=
        List.mem_append_right _ (List.mem_filterMap.mpr ⟨r, hr, hitem⟩)
      exact ⟨emittedItems payload store,
        by rw [checkAndUpsertRequests_snd, if_neg (List.ne_nil_of_mem hmemitems)],
        hmemitems, rfl⟩
  · intro r hr hin r' hr'
    obtain ⟨a, ha, hak⟩ := List.mem_map.mp hin
    rw [checkAndUpsertRequests_fst,
      foldl_reverseStep_findReq_mem _ r.request_id hin] at hr'
    exact phase1_reversed_false store payload r.request_id ⟨a, ha, hak⟩ r' hr'
  · intro r hr hnotin hrev items hitems item hitem hkey
    have hitemsE : items = emittedItems payload store := by
      rw [checkAndUpsertRequests_snd] at hitems
      by_cases hE : emittedItems payload store = []
      · rw [if_pos hE] at hitems; cases hitems
      · rw [if_neg hE] at hitems; exact (Option.some_inj.mp hitems).symm
    subst hitemsE
    unfold emittedItems at hitem
    rcases List.mem_append.mp hitem with hup | hrv
    · obtain ⟨a, ha, hea⟩ := List.mem_filterMap.mp hup
      have hia := emitUpsert_some_id hea
      exact hnotin (List.mem_map.mpr ⟨a, ha, hia.symm.trans hkey⟩)
    · obtain ⟨r2, hr2, her2⟩ := List.mem_filterMap.mp hrv
      obtain ⟨hitemeq, _, hrev2⟩ := emitReverse_some her2
      have hk2 : r2.request_id = r.request_id := by rw [← hkey, hitemeq]; rfl
      have hr2r := List.inj_on_of_nodup_map hnd hr2 hr hk2
      rw [hr2r, hrev] at hrev2
      cases hrev2
  · intro r hr
    rw [checkAndUpsertRequests_fst]
    exact foldl_reverseStep_existsAt _ store _ r.request_id
      (phase1_existsAt store payload r.request_id (findReq_isSome_of_mem hr))

/-- Witness for C2: with the payload containing id "1" over a store
holding ids "1" and "2", record "2" ends marked reversed and a REVERSED
item is returned. -/
theorem checkAndUpsertRequests_reversal_witness :
    ∃ items, (checkAndUpsertRequests [reqA] demoStore).2 = some items ∧
      reversedItem recGone ∈ items ∧ (reversedItem recGone).state = "REVERSED" :=
  ((checkAndUpsertRequests_reversal [reqA] demoStore (by decide)).1 recGone
    (by decide) (by decide) (by decide)).2

/-- C3 counterexample: a batch carrying one request id twice with two
different `date_updated` values is re-classified (UPDATED) on the second
run over the store the first run produced, so the second run does not
return null. -/
theorem checkAndUpsertRequests_second_run_not_null :
    (checkAndUpsertRequests dupBatch (checkAndUpsertRequests dupBatch []).1).2 ≠ none ∧
    dupBatch.map (fun a => a.request_id) = ["1", "1"] := by
  constructor
  · decide
  · decide

/-- C3 amended: when no two batch entries share a string-normalised
request id while disagreeing on `date_updated`, a second run of
`checkAndUpsertRequests` on the same batch over the store state produced
by the first run returns null. -/
theorem checkAndUpsertRequests_idempotent (payload : List ReqAttrs)
    (store : List DynamoRecord)
    (hdup : ∀ a ∈ payload, ∀ b ∈ payload, a.request_id = b.request_id →
      a.date_updated = b.date_updated) :
    (checkAndUpsertRequests payload (checkAndUpsertRequests payload store).1).2 = none := by
  rw [checkAndUpsertRequests_snd, if_pos]
  unfold emittedItems
  rw [List.append_eq_nil]
  constructor
  · rw [List.filterMap_eq_nil_iff]
    intro a ha
    have hd : ∀ b ∈ payload, b.request_id = a.request_id → b.date_updated = a.date_updated :=
      fun b hb hbk => hdup b hb a ha hbk
    obtain ⟨r', hr', hrd⟩ :=
      phase1_date store payload a.request_id a.date_updated hd ⟨a, ha, rfl⟩
    have hin : a.request_id ∈ payload.map (fun b => b.request_id) :=
      List.mem_map.mpr ⟨a, ha, rfl⟩
    have hfind : findReq (checkAndUpsertRequests payload store).1 a.request_id = some r' := by
      rw [checkAndUpsertRequests_fst,
        foldl_reverseStep_findReq_mem _ a.request_id hin]
      exact hr'
    unfold emitUpsert
    rw [hfind]
    simp [hrd]
  · rw [List.filterMap_eq_nil_iff]
    intro r hr
    by_cases hin : r.request_id ∈ payload.map (fun a => a.request_id)
    · simp [emitReverse, hin]
    · have hrevtrue : r.reversed = true := by
        refine phase2_all_reversed (payload.map (fun a => a.request_id)) store
          (payload.foldl (processRequestStep store) ⟨store, []⟩) ?_ r ?_ hin
        · intro r' hr' hid
          have hmem := phase1_mem_untouched store payload r' hr' hid
          by_cases hb : r'.reversed = true
          · exact Or.inl hb
          · refine Or.inr ⟨r', hmem, rfl, ?_⟩
            cases hbb : r'.reversed
            · rfl
            · exact absurd hbb hb
        · rw [← checkAndUpsertRequests_fst]
          exact hr
      simp [emitReverse, hin, hrevtrue]

/-- Witness for C3 at a concrete batch and store. -/
theorem checkAndUpsertRequests_idempotent_witness :
    (checkAndUpsertRequests [reqA] (checkAndUpsertRequests [reqA] demoStore).1).2 = none :=
  checkAndUpsertRequests_idempotent [reqA] demoStore (by decide)

/-! ## Posting translator: validation and aggregation (C4, C6) -/

theorem mapMaterials_error_of_mem (wid : Nat) (smap : List (Nat × StockAgg))
    (ms : List MaterialAttrs) (mat : MaterialAttrs) (hmem : mat ∈ ms)
    (herr : ∃ e, buildMaterialLine wid smap mat = Except.error e) :
    ∃ e, mapMaterials wid smap ms = Except.error e := by
  induction ms with
  | nil => cases hmem
  | cons m rest ih =>
      rcases List.mem_cons.mp hmem with he | he
      · obtain ⟨e, hee⟩ := herr
        rw [he] at hee
        exact ⟨e, by simp [mapMaterials, hee]⟩
      · cases hm : buildMaterialLine wid smap m with
        | error e => exact ⟨e, by simp [mapMaterials, hm]⟩
        | ok l? =>
            obtain ⟨e, hee⟩ := ih he
            exact ⟨e, by simp [mapMaterials, hm, hee]⟩

theorem buildMaterialLine_error_of_bad (wid : Nat) (smap : List (Nat × StockAgg))
    (mat : MaterialAttrs) (hid : jsFalsyNat mat.material_id = false)
    (hbad : jsFalsyStr mat.code = true ∨ jsFalsyStr mat.full_code = true) :
    ∃ e, buildMaterialLine wid smap mat = Except.error e := by
  by_cases hc : jsFalsyStr mat.code = true
  · exact ⟨"Material code is missing or invalid", by simp [buildMaterialLine, hid, hc]⟩
  · have hf : jsFalsyStr mat.full_code = true := by
      rcases hbad with hb | hb
      · exact absurd hb hc
      · exact hb
    exact ⟨"Full code is missing or invalid", by simp [buildMaterialLine, hid, hc, hf]⟩

/-- C4 counterexample: a material entry lacking its material id (code and
full code valid) does not abort translation — the whole order translates
successfully with the entry skipped, producing an empty material list
rather than a validation error. -/
theorem processWorkOrder_missing_id_not_error :
    processWorkOrderMaterials 7 c4Included = Except.ok [] ∧
    jsFalsyNat badIdMat.material_id = true ∧
    jsFalsyStr badIdMat.code = false ∧
    jsFalsyStr badIdMat.full_code = false := by
  refine ⟨?_, ?_, ?_, ?_⟩ <;> decide

/-- C4 amended: a material entry with a present, non-zero material id but
a missing or empty material code or full code aborts translation of the
whole order with a validation error, producing no material list at all
(a JavaScript-falsy material id instead skips only that entry). -/
theorem processWorkOrder_aborts_on_bad_code (wid : Nat) (included : List IncludedItem)
    (mat : MaterialAttrs) (hmem : mat ∈ materialEntriesOf included)
    (hid : jsFalsyNat mat.material_id = false)
    (hbad : jsFalsyStr mat.code = true ∨ jsFalsyStr mat.full_code = true) :
    ∃ e, processWorkOrderMaterials wid included = Except.error e :=
  mapMaterials_error_of_mem wid (buildStockMap (stockEntriesOf included))
    (materialEntriesOf included) mat hmem
    (buildMaterialLine_error_of_bad wid (buildStockMap (stockEntriesOf included)) mat hid hbad)

/-- Witness for the amended C4: an order with one valid material and one
material lacking its code fails as a whole. -/
theorem processWorkOrder_aborts_on_bad_code_witness :
    ∃ e, processWorkOrderMaterials 7 c4wIncluded = Except.error e :=
  processWorkOrder_aborts_on_bad_code 7 c4wIncluded badCodeMat (by decide) (by decide)
    (Or.inl (by decide))

theorem stockMapLookup_insert_self (acc : List (Nat × StockAgg)) (s : StockAttrs) :
    stockMapLookup (stockMapInsert acc s) s.material_id =
      match stockMapLookup acc s.material_id with
      | none => some ⟨jsQty s, s.mean_price⟩
      | some a => some ⟨a.totalQuantity + jsQty s, a.meanPrice⟩ := by
  induction acc with
  | nil => simp [stockMapInsert, stockMapLookup]
  | cons p rest ih =>
      obtain ⟨k, a⟩ := p
      by_cases hk : k = s.material_id
      · have hb : (k == s.material_id) = true := beq_iff_eq.mpr hk
        simp [stockMapInsert, stockMapLookup, hb]
      · have hb : (k == s.material_id) = false := beq_eq_false_iff_ne.mpr hk
        simp only [stockMapInsert, hb, Bool.false_eq_true, if_false]
        simpa [stockMapLookup, hb] using ih

theorem stockMapLookup_insert_ne (acc : List (Nat × StockAgg)) (s : StockAttrs) (k : Nat)
    (h : k ≠ s.material_id) :
    stockMapLookup (stockMapInsert acc s) k = stockMapLookup acc k := by
  induction acc with
  | nil =>
      have hb : (s.material_id == k) = false := beq_eq_false_iff_ne.mpr (Ne.symm h)
      simp [stockMapInsert, stockMapLookup, hb]
  | cons p rest ih =>
      obtain ⟨k0, a⟩ := p
      by_cases hk0 : k0 = s.material_id
      · have hb : (k0 == s.material_id) = true := beq_iff_eq.mpr hk0
        have hbk : (k0 == k) = false := beq_eq_false_iff_ne.mpr (by rw [hk0]; exact Ne.symm h)
        simp [stockMapInsert, stockMapLookup, hb, hbk]
      · have hb : (k0 == s.material_id) = false := beq_eq_false_iff_ne.mpr hk0
        by_cases hbk : k0 = k
        · have hbk2 : (k0 == k) = true := beq_iff_eq.mpr hbk
          simp [stockMapInsert, stockMapLookup, hb, hbk2]
        · have hbk2 : (k0 == k) = false := beq_eq_false_iff_ne.mpr hbk
          simp only [stockMapInsert, hb, Bool.false_eq_true, if_false]
          simpa [stockMapLookup, hbk2] using ih

theorem foldl_stockMapInsert_lookup (k : Nat) :
    ∀ (stocks : List StockAttrs) (acc : List (Nat × StockAgg)),
      stockMapLookup (stocks.foldl stockMapInsert acc) k =
        match stockMapLookup acc k, stocks.find? (fun s => s.material_id == k) with
        | none, none => none
        | none, some s0 =>
            some ⟨((stocks.filter (fun s => s.material_id == k)).map jsQty).sum,
              s0.mean_price⟩
        | some a, _ =>
            some ⟨a.totalQuantity +
                ((stocks.filter (fun s => s.material_id == k)).map jsQty).sum,
              a.meanPrice⟩ := by
  intro stocks
  induction stocks with
  | nil =>
      intro acc
      cases h : stockMapLookup acc k with
      | none => simp [h]
      | some a => simp [h]
  | cons s rest ih =>
      intro acc
      rw [List.foldl_cons, ih]
      by_cases hsk : s.material_id = k
      · have hb : (s.material_id == k) = true := beq_iff_eq.mpr hsk
        have hins := stockMapLookup_insert_self acc s
        rw [hsk] at hins
        cases ha : stockMapLookup acc k with
        | none =>
            rw [ha] at hins
            simp [hins, List.find?_cons, List.filter_cons, hb]
        | some a =>
            rw [ha] at hins
            simp [hins, List.find?_cons, List.filter_cons, hb, Int.add_assoc]
      · have hb : (s.material_id == k) = false := beq_eq_false_iff_ne.mpr hsk
        rw [stockMapLookup_insert_ne acc s k (Ne.symm hsk)]
        simp [List.find?_cons, List.filter_cons, hb]

theorem buildStockMap_lookup (stocks : List StockAttrs) (k : Nat) :
    stockMapLookup (buildStockMap stocks) k =
      match stocks.find? (fun s => s.material_id == k) with
      | none => none
      | some s0 =>
          some ⟨((stocks.filter (fun s => s.material_id == k)).map jsQty).sum,
            s0.mean_price⟩ := by
  have h := foldl_stockMapInsert_lookup k stocks []
  rw [show stockMapLookup ([] : List (Nat × StockAgg)) k = none from rfl] at h
  cases hf : stocks.find? (fun s => s.material_id == k) with
  | none => rw [hf] at h; simpa [buildStockMap] using h
  | some s0 => rw [hf] at h; simpa [buildStockMap] using h

theorem mapMaterials_ok_mem (wid : Nat) (smap : List (Nat × StockAgg)) :
    ∀ (ms : List MaterialAttrs) (lines : List MaterialLine),
      mapMaterials wid smap ms = Except.ok lines →
      ∀ mat ∈ ms, ∀ l, buildMaterialLine wid smap mat = Except.ok (some l) → l ∈ lines := by
  intro ms
  induction ms with
  | nil => intro lines _ mat hmem; cases hmem
  | cons m rest ih =>
      intro lines h mat hmem l hl
      cases hm : buildMaterialLine wid smap m with
      | error e => simp [mapMaterials, hm] at h
      | ok l? =>
          cases hrest : mapMaterials wid smap rest with
          | error e => simp [mapMaterials, hm, hrest] at h
          | ok rest' =>
              cases l? with
              | none =>
                  simp only [mapMaterials, hm, hrest] at h
                  injection h with h2
                  subst h2
                  rcases List.mem_cons.mp hmem with he | he
                  · rw [he] at hl
                    rw [hl] at hm
                    injection hm with hm2
                    cases hm2
                  · exact ih rest' hrest mat he l hl
              | some l0 =>
                  simp only [mapMaterials, hm, hrest] at h
                  injection h with h2
                  subst h2
                  rcases List.mem_cons.mp hmem with he | he
                  · rw [he] at hl
                    rw [hl] at hm
                    injection hm with hm2
                    injection hm2 with hm3
                    rw [hm3]
                    exact List.mem_cons_self l0 rest'
                  · exact List.mem_cons_of_mem l0 (ih rest' hrest mat he l hl)

theorem buildMaterialLine_ok_shape (wid : Nat) (smap : List (Nat × StockAgg))
    (mat : MaterialAttrs) (k : Nat) (hid : mat.material_id = some k) (hk : k ≠ 0) :
    (∃ e, buildMaterialLine wid smap mat = Except.error e) ∨
    buildMaterialLine wid smap mat = Except.ok (some
      { workOrderId := wid, materialId := k,
        materialCode := mat.code.getD "",
        folderCode := jsFolderCode (mat.full_code.getD ""),
        quantity := ((stockMapLookup smap k).getD ⟨0, mat.mean_price⟩).totalQuantity,
        meanPrice := ((stockMapLookup smap k).getD ⟨0, mat.mean_price⟩).meanPrice }) := by
  have hfalsy : jsFalsyNat mat.material_id = false := by
    rw [hid]
    simpa [jsFalsyNat] using hk
  cases hc : jsFalsyStr mat.code with
  | true =>
      exact Or.inl ⟨"Material code is missing or invalid",
        by simp [buildMaterialLine, hfalsy, hc]⟩
  | false =>
      cases hf : jsFalsyStr mat.full_code with
      | true =>
          exact Or.inl ⟨"Full code is missing or invalid",
            by simp [buildMaterialLine, hfalsy, hc, hf]⟩
      | false =>
          cases hfc : (jsFolderCode (mat.full_code.getD "") == "") with
          | true =>
              exact Or.inl ⟨"Folder code is missing or invalid",
                by simp [buildMaterialLine, hfalsy, hc, hf, hfc]⟩
          | false =>
              refine Or.inr ?_
              simp [buildMaterialLine, hfalsy, hc, hf, hfc, hid, jsFalsyNat, hk]

/-- C6: for every order, the derived material line of a material with
stock entries carries the sum of all stock-entry quantities sharing its
`material_id`, and the mean price of the first stock entry seen for that
id (the aggregation group's representative), not a weighted average; with
no stock entry for the id, quantity 0 and the material's own mean price
are used. -/
theorem materialLine_aggregation (wid : Nat) (included : List IncludedItem)
    (mat : MaterialAttrs) (k : Nat)
    (hmem : mat ∈ materialEntriesOf included)
    (hid : mat.material_id = some k) (hk : k ≠ 0)
    (lines : List MaterialLine)
    (hok : processWorkOrderMaterials wid included = Except.ok lines) :
    ∃ line ∈ lines, line.materialId = k ∧
      line.quantity =
        (((stockEntriesOf included).filter (fun s => s.material_id == k)).map jsQty).sum ∧
      (∀ s0, (stockEntriesOf included).find? (fun s => s.material_id == k) = some s0 →
        line.meanPrice = s0.mean_price) ∧
      ((stockEntriesOf included).find? (fun s => s.material_id == k) = none →
        line.meanPrice = mat.mean_price) := by
  rcases buildMaterialLine_ok_shape wid (buildStockMap (stockEntriesOf included)) mat k
      hid hk with herr | hline
  · obtain ⟨e, he⟩ := mapMaterials_error_of_mem wid _ _ mat hmem herr
    rw [show processWorkOrderMaterials wid included =
      mapMaterials wid (buildStockMap (stockEntriesOf included)) (materialEntriesOf included)
      from rfl, he] at hok
    cases hok
  · have hmemline := mapMaterials_ok_mem wid (buildStockMap (stockEntriesOf included))
      (materialEntriesOf included) lines hok mat hmem _ hline
    refine ⟨_, hmemline, rfl, ?_, ?_, ?_⟩
    · show ((stockMapLookup (buildStockMap (stockEntriesOf included)) k).getD
        ⟨0, mat.mean_price⟩).totalQuantity = _
      rw [buildStockMap_lookup]
      cases hf : (stockEntriesOf included).find? (fun s => s.material_id == k) with
      | none =>
          have hfil : (stockEntriesOf included).filter (fun s => s.material_id == k) = [] := by
            rw [List.filter_eq_nil_iff]
            intro s hs
            have := List.find?_eq_none.mp hf s hs
            simpa using this
          simp [hfil]
      | some s0 => simp
    · intro s0 hf
      show ((stockMapLookup (buildStockMap (stockEntriesOf included)) k).getD
        ⟨0, mat.mean_price⟩).meanPrice = s0.mean_price
      rw [buildStockMap_lookup, hf]
      rfl
    · intro hf
      show ((stockMapLookup (buildStockMap (stockEntriesOf included)) k).getD
        ⟨0, mat.mean_price⟩).meanPrice = mat.mean_price
      rw [buildStockMap_lookup, hf]
      rfl

/-- Witness for C6: stock entries of 3 and 5 for material 4 yield one line
of quantity 8 with the price of the first entry (11). -/
theorem materialLine_aggregation_witness :
    ∃ line ∈ [c6ExpectedLine],
      line.materialId = 4 ∧ line.quantity = 8 ∧ line.meanPrice = 11 := by
  obtain ⟨line, hmem, hid, hq, hs, _⟩ :=
    materialLine_aggregation 7 c6Included c6Mat 4 (by decide) (by decide) (by decide)
      [c6ExpectedLine] (by decide)
  refine ⟨line, hmem, hid, ?_, ?_⟩
  · rw [hq]; decide
  · rw [hs ⟨4, some 3, 11⟩ (by decide)]

/-! ## Inventory posting: matching and failure modes (C5, C10) -/

theorem findMatchingProduct_wf (code : String) :
    ∀ stock : List OdooStockRecord,
      (∀ p ∈ stock, ((bracketCode p.product_display).getD "") ≠ "") →
      findMatchingProduct code stock =
        Except.ok (stock.find? (fun p => refMatches p code)) := by
  intro stock
  induction stock with
  | nil => intro _; rfl
  | cons p rest ih =>
      intro hwf
      have hp := hwf p (List.mem_cons_self p rest)
      cases hb : bracketCode p.product_display with
      | none => rw [hb] at hp; exact absurd rfl hp
      | some ref =>
          rw [hb] at hp
          have hrefne : (ref == "") = false := beq_eq_false_iff_ne.mpr (by simpa using hp)
          have hrm : refMatches p code = (jsToUpper (jsTrim ref) == jsToUpper (jsTrim code)) := by
            simp [refMatches, hb]
          cases hm : (jsToUpper (jsTrim ref) == jsToUpper (jsTrim code)) with
          | true => simp [findMatchingProduct, hb, hrefne, hm, List.find?_cons, hrm]
          | false =>
              simp only [findMatchingProduct, hb, hrefne, hm, Bool.false_eq_true, if_false,
                List.find?_cons, hrm]
              exact ih (fun q hq => hwf q (List.mem_cons_of_mem p hq))

/-- C5 counterexample: the snapshot holds a record with no bracketed code
followed by a record that matches the line's code with sufficient stock,
yet the function throws the TypeError instead of emitting the posting. -/
theorem prepareInventoryPosting_counterexample :
    prepareInventoryPosting [c5Line] c5BadStock = Except.error InvError.noBracketTypeError ∧
    bracketCode c5NoBracket.product_display = none ∧
    refMatches c5Match c5Line.materialCode = true ∧
    c5Line.quantity ≤ c5Match.quantity := by
  refine ⟨?_, ?_, ?_, ?_⟩ <;> decide

/-- C5 amended: provided every snapshot record's display string carries a
nonempty bracketed code and the line's material code is nonempty: no
case-insensitive match means the unmatched-product error; a match with
requested quantity above on-hand means the insufficient-stock error;
otherwise the emitted posting carries the matched record's product and
location ids and the requested quantity.  (The source function performs
no remote write: it only reads its snapshot argument.) -/
theorem prepareInventoryPosting_matching (w : Nat) (stock : List OdooStockRecord)
    (item : MaterialLine)
    (hwf : ∀ p ∈ stock, ((bracketCode p.product_display).getD "") ≠ "")
    (hcode : item.materialCode ≠ "") :
    (stock.find? (fun p => refMatches p item.materialCode) = none →
      prepareItem w stock item = Except.error InvError.noMatchingProduct) ∧
    (∀ p, stock.find? (fun p => refMatches p item.materialCode) = some p →
      (p.quantity < item.quantity →
        prepareItem w stock item = Except.error InvError.insufficientStock) ∧
      (item.quantity ≤ p.quantity →
        prepareItem w stock item = Except.ok
          { product_id := p.product_id0, location_id := p.location_id0,
            quantity := item.quantity, work_order_id := w })) ∧
    (prepareInventoryPosting [item] stock =
      match prepareItem item.workOrderId stock item with
      | Except.error e => Except.error e
      | Except.ok post => Except.ok [post]) := by
  have hb : (item.materialCode == "") = false := beq_eq_false_iff_ne.mpr hcode
  have hfm := findMatchingProduct_wf item.materialCode stock hwf
  refine ⟨?_, ?_, ?_⟩
  · intro hnone
    rw [hnone] at hfm
    simp [prepareItem, hb, hfm]
  · intro p hsome
    rw [hsome] at hfm
    constructor
    · intro hlt
      have hneg : p.quantity - item.quantity < 0 := by omega
      simp [prepareItem, hb, hfm, hneg]
    · intro hle
      have hneg : ¬ p.quantity - item.quantity < 0 := by omega
      simp [prepareItem, hb, hfm, hneg]
  · cases hp : prepareItem item.workOrderId stock item with
    | error e => simp [prepareInventoryPosting, prepareItems, hp]
    | ok post => simp [prepareInventoryPosting, prepareItems, hp]

/-- Witness for the amended C5 at a one-record snapshot. -/
theorem prepareInventoryPosting_matching_witness :
    prepareItem 7 c5GoodStock c5Line =
      Except.ok { product_id := 11, location_id := 21, quantity := 1, work_order_id := 7 } := by
  have h := ((prepareInventoryPosting_matching 7 c5GoodStock c5Line (by decide)
    (by decide)).2.1 c5Match (by decide)).2 (by decide)
  simpa using h

/-- C10: the bracket-code extraction is partial.  A snapshot record whose
display string has no bracketed substring makes `prepareInventoryPosting`
throw the TypeError during the scan — aborting even though a later record
matches — and makes the drift reconciler's `processOdooData` abort
likewise; the scan is free of this TypeError exactly under the
precondition that every scanned record's display string has a bracketed
code. -/
theorem bracketCode_partiality :
    prepareInventoryPosting [c10Line] c10Stock = Except.error InvError.noBracketTypeError ∧
    bracketCode "plain name" = none ∧
    refMatches c10Match c10Line.materialCode = true ∧
    processOdooData c10SyncStock c10Products c10Materials c10Warehouses =
      Except.error SyncError.noBracketTypeError ∧
    (∀ stock : List OdooStockRecord,
      (∀ p ∈ stock, (bracketCode p.product_display).isSome = true) →
      ∀ code, findMatchingProduct code stock ≠ Except.error InvError.noBracketTypeError) := by
  refine ⟨by decide, by decide, by decide, by decide, ?_⟩
  intro stock
  induction stock with
  | nil =>
      intro _ code h
      cases h
  | cons p rest ih =>
      intro hwf code
      have hp := hwf p (List.mem_cons_self p rest)
      cases hb : bracketCode p.product_display with
      | none => rw [hb] at hp; cases hp
      | some ref =>
          cases h1 : (ref == "") with
          | true => simp [findMatchingProduct, hb, h1]
          | false =>
              cases h2 : (jsToUpper (jsTrim ref) == jsToUpper (jsTrim code)) with
              | true => simp [findMatchingProduct, hb, h1, h2]
              | false =>
                  simp only [findMatchingProduct, hb, h1, h2, Bool.false_eq_true, if_false]
                  exact ih (fun q hq => hwf q (List.mem_cons_of_mem p hq)) code

/-- Witness for C10: under the bracketed-code precondition the scan never
throws the TypeError. -/
theorem bracketCode_partiality_witness :
    findMatchingProduct "A" c5GoodStock ≠ Except.error InvError.noBracketTypeError :=
  bracketCode_partiality.2.2.2.2 c5GoodStock (by decide) "A"

/-! ## Ledger poster: balanced journal pairs (C7) -/

theorem chunkPairs_map_pairs {β : Type} (f g : β → JournalLine) :
    ∀ ms : List β,
      chunkPairs ((ms.map (fun m => [f m, g m])).flatten) = ms.map (fun m => (f m, g m)) := by
  intro ms
  induction ms with
  | nil => rfl
  | cons m rest ih =>
      simp only [List.map_cons, List.flatten_cons, List.cons_append, List.nil_append]
      rw [chunkPairs, ih]

theorem zip_map_mem {α β : Type} (f : α → β) :
    ∀ (l : List α) (pm : β × α), pm ∈ (l.map f).zip l → ∃ a ∈ l, pm = (f a, a) := by
  intro l
  induction l with
  | nil => intro pm h; cases h
  | cons x rest ih =>
      intro pm h
      simp only [List.map_cons, List.zip_cons_cons] at h
      rcases List.mem_cons.mp h with he | he
      · exact ⟨x, List.mem_cons_self x rest, he⟩
      · obtain ⟨a, ha, he2⟩ := ih pm he
        exact ⟨a, List.mem_cons_of_mem x ha, he2⟩

theorem postOdooAccountingLines_pairs (d : AcctData) (cc : Nat) (ot st : String) :
    postOdooAccountingLines d cc ot st =
      ((d.material.map (fun m => [debitLineFor cc ot d.workOrderId st m,
        creditLineFor cc ot d.workOrderId st m])).flatten) := rfl

theorem chunkPairs_postOdooAccountingLines (d : AcctData) (cc : Nat) (ot st : String) :
    chunkPairs (postOdooAccountingLines d cc ot st) =
      d.material.map (fun m => (debitLineFor cc ot d.workOrderId st m,
        creditLineFor cc ot d.workOrderId st m)) := by
  rw [postOdooAccountingLines_pairs]
  exact chunkPairs_map_pairs _ _ d.material

/-- C7: the journal entry is the concatenation of one (debit, credit)
line pair per material; each pair is balanced (debit amount = credit
amount); the amount is meanPrice * quantity for COMPLETED and meanPrice
alone for REVERSED; and the debit/credit account roles swap between the
two states (COMPLETED debits the inventories account 482 and credits the
cost-center account, REVERSED the other way round). -/
theorem postOdooAccounting_balanced (d : AcctData) (cc : Nat) (ot : String) :
    (postOdooAccountingLines d cc ot "COMPLETED" =
      ((chunkPairs (postOdooAccountingLines d cc ot "COMPLETED")).map
        (fun pr => [pr.1, pr.2])).flatten) ∧
    (chunkPairs (postOdooAccountingLines d cc ot "COMPLETED")).length =
      d.material.length ∧
    (postOdooAccountingLines d cc ot "REVERSED" =
      ((chunkPairs (postOdooAccountingLines d cc ot "REVERSED")).map
        (fun pr => [pr.1, pr.2])).flatten) ∧
    (chunkPairs (postOdooAccountingLines d cc ot "REVERSED")).length =
      d.material.length ∧
    (∀ pm ∈ (chunkPairs (postOdooAccountingLines d cc ot "COMPLETED")).zip d.material,
      pm.1.1.debit = some (pm.2.meanPrice * pm.2.quantity) ∧
      pm.1.2.credit = some (pm.2.meanPrice * pm.2.quantity) ∧
      pm.1.1.debit = pm.1.2.credit ∧ pm.1.1.credit = none ∧ pm.1.2.debit = none ∧
      pm.1.1.account_id = accountIdInventories ∧ pm.1.2.account_id = cc) ∧
    (∀ pm ∈ (chunkPairs (postOdooAccountingLines d cc ot "REVERSED")).zip d.material,
      pm.1.1.debit = some pm.2.meanPrice ∧ pm.1.2.credit = some pm.2.meanPrice ∧
      pm.1.1.debit = pm.1.2.credit ∧ pm.1.1.credit = none ∧ pm.1.2.debit = none ∧
      pm.1.1.account_id = cc ∧ pm.1.2.account_id = accountIdInventories) := by
  refine ⟨?_, ?_, ?_, ?_, ?_, ?_⟩
  · rw [chunkPairs_postOdooAccountingLines, List.map_map, postOdooAccountingLines_pairs]
    rfl
  · rw [chunkPairs_postOdooAccountingLines, List.length_map]
  · rw [chunkPairs_postOdooAccountingLines, List.map_map, postOdooAccountingLines_pairs]
    rfl
  · rw [chunkPairs_postOdooAccountingLines, List.length_map]
  · intro pm hpm
    rw [chunkPairs_postOdooAccountingLines] at hpm
    obtain ⟨m, _, he⟩ := zip_map_mem _ d.material pm hpm
    subst he
    refine ⟨?_, ?_, ?_, rfl, rfl, ?_, ?_⟩ <;> rfl
  · intro pm hpm
    rw [chunkPairs_postOdooAccountingLines] at hpm
    obtain ⟨m, _, he⟩ := zip_map_mem _ d.material pm hpm
    subst he
    refine ⟨?_, ?_, ?_, rfl, rfl, ?_, ?_⟩ <;> rfl

/-- Witness for C7: one material yields one balanced pair. -/
theorem postOdooAccounting_balanced_witness :
    (chunkPairs (postOdooAccountingLines ⟨3, 9, [⟨"M", 2, 5⟩]⟩ 9 "Work Order"
      "COMPLETED")).length = 1 := by
  have h := (postOdooAccounting_balanced ⟨3, 9, [⟨"M", 2, 5⟩]⟩ 9 "Work Order").2.1
  simpa using h

/-! ## Drift reconciler: delta movements (C8) -/

/-- C8 counterexample: a mapped pair whose field record exists with
quantity 0 and whose ledger quantity is 0 has ledger = field, yet the
code posts an ADD movement of 0 instead of posting nothing. -/
theorem postStock_zero_field_counterexample :
    getMaterialQuantitiesFromInfraspeak c8Field c8Row.MaterialId c8Row.WarehouseId = some 0 ∧
    c8Row.AvailableQty = 0 ∧
    postStockToInfraspeak [c8Row] c8Field = [StockMovement.add 1 0 4 3] := by
  refine ⟨?_, ?_, ?_⟩ <;> decide

/-- C8 amended: for a mapped pair with ledger quantity L and field
quantity F, when the field record exists with F ≠ 0: L > F posts one ADD
of L - F, L < F one CONSUME of F - L, L = F nothing; when the field
record is missing, or exists with quantity 0, the field quantity is
treated as zero and one ADD of L is posted (including a zero-quantity ADD
when L = 0). -/
theorem postStockToInfraspeak_delta (wq : List WarehouseQty) (w : ProcessedRow) :
    (∀ f, w.MaterialId ≠ 0 →
      getMaterialQuantitiesFromInfraspeak wq w.MaterialId w.WarehouseId = some f →
      ((f ≠ 0 → w.AvailableQty > f →
        postStockRow wq w = some (StockMovement.add w.MaterialId (w.AvailableQty - f)
          w.WarehouseId w.AverageCost)) ∧
       (f ≠ 0 → w.AvailableQty < f →
        postStockRow wq w = some (StockMovement.consume w.MaterialId (f - w.AvailableQty)
          w.WarehouseId w.AverageCost)) ∧
       (f ≠ 0 → w.AvailableQty = f → postStockRow wq w = none) ∧
       (f = 0 → postStockRow wq w = some (StockMovement.add w.MaterialId w.AvailableQty
          w.WarehouseId w.AverageCost)))) ∧
    (w.MaterialId ≠ 0 →
      getMaterialQuantitiesFromInfraspeak wq w.MaterialId w.WarehouseId = none →
      postStockRow wq w = some (StockMovement.add w.MaterialId w.AvailableQty
        w.WarehouseId w.AverageCost)) ∧
    postStockToInfraspeak [w] wq = (postStockRow wq w).toList := by
  refine ⟨?_, ?_, ?_⟩
  · intro f hid hget
    have hbid : (w.MaterialId == 0) = false := beq_eq_false_iff_ne.mpr hid
    refine ⟨?_, ?_, ?_, ?_⟩
    · intro hf hgt
      simp [postStockRow, hbid, hget, hf, hgt]
    · intro hf hlt
      have hngt : ¬ w.AvailableQty > f := by omega
      simp [postStockRow, hbid, hget, hf, hngt, hlt]
    · intro hf heq
      have hngt : ¬ w.AvailableQty > f := by omega
      have hnlt : ¬ w.AvailableQty < f := by omega
      simp [postStockRow, hbid, hget, hf, hngt, hnlt]
    · intro hf
      simp [postStockRow, hbid, hget, hf]
  · intro hid hget
    have hbid : (w.MaterialId == 0) = false := beq_eq_false_iff_ne.mpr hid
    simp [postStockRow, hbid, hget]
  · cases hrow : postStockRow wq w with
    | none => simp [postStockToInfraspeak, List.filterMap_cons, hrow]
    | some mv => simp [postStockToInfraspeak, List.filterMap_cons, hrow]

/-- Witness for the amended C8: ledger 12 against field 7 posts one ADD
movement of 5. -/
theorem postStockToInfraspeak_delta_witness :
    postStockRow c8wField c8wRow = some (StockMovement.add 1 5 4 3) := by
  have h := ((postStockToInfraspeak_delta c8wField c8wRow).1 7 (by decide) (by decide)).1
    (by decide) (by decide)
  rw [h]
  decide

/-! ## Handler loop: early return (C9) -/

/-- C9: the handler's loop over the classified work list returns its HTTP
response inside the loop as soon as the first item's posting succeeds (or
throws otherwise), so the items after the first are never reached: the
loop's outcome on `item :: rest` never depends on `rest`, and at most one
order is processed per invocation. -/
theorem handler_single_item_per_invocation {α : Type}
    (proc : ClassifiedItem → Except String (Option α))
    (item : ClassifiedItem) (rest : List ClassifiedItem) :
    handlerLoop proc (item :: rest) = handlerLoop proc [item] ∧
    (∀ r, proc item = Except.ok (some r) →
      handlerLoop proc (item :: rest) = Except.ok (some (createResponse
        ("Successfully posted " ++ orderTypeOf item ++ " Id " ++ item.related_to_id ++
          " to Odoo.") 200))) := by
  constructor
  · cases hp : proc item with
    | error e => simp [handlerLoop, hp]
    | ok r? => cases r? <;> simp [handlerLoop, hp]
  · intro r hp
    simp [handlerLoop, hp]

/-- Witness for C9: with a two-item work list and a processor that
succeeds, the handler returns the response for the first item. -/
theorem handler_single_item_witness :
    handlerLoop (fun _ => Except.ok (some (0 : Nat)))
        [reversedItem recGone, reversedItem recKeep] =
      Except.ok (some (createResponse "Successfully posted Work Order Id 20 to Odoo." 200)) := by
  have h := (handler_single_item_per_invocation (fun _ => Except.ok (some (0 : Nat)))
    (reversedItem recGone) [reversedItem recKeep]).2 0 rfl
  rw [h]
  decide

end OdooSpeak
